import Mathlib

/-!
Verification development for the sqlc `vet` subcommand
(`internal/cmd/vet.go`).

The Go source is shallowly embedded below.  The CEL expression runtime,
the SQL parser and the database drivers are external collaborators of the
code under study; they are modelled as oracles (plain functions supplied
as arguments), while every piece of control flow, string formatting and
data projection of `vet.go` itself is translated directly from the source.
Machine I/O (lines written to stderr, database round trips) is made
observable by threading an explicit `IOState` value through the loops.
-/

namespace SqlcVet

/-! ## Small Go string helpers -/

/-- Occurrence of one character list inside another: `sub` is an infix of
the second argument.  The empty list occurs everywhere. -/
def charsContain (sub : List Char) : List Char → Bool
  | [] => sub.isEmpty
  | c :: rest => sub.isPrefixOf (c :: rest) || charsContain sub rest

/-- Embedding of Go `strings.Contains s sub`: `sub` occurs somewhere in `s`.
Go returns true for the empty substring. -/
def goContains (s sub : String) : Bool :=
  charsContain sub.toList s.toList

/-- Embedding of Go `strings.TrimPrefix s pre`: returns `s` without the
leading `pre`, or `s` unchanged if `s` does not start with `pre`. -/
def goTrimPfx (s pre : String) : String :=
  if pre.isPrefixOf s then s.drop pre.length else s

/-! ## Engine and statement kinds

`config.Engine` is a string type in the Go configuration package; the
constants below are its documented values.  `ast.RawStmt.Stmt` is an AST
node; `prepareable` only inspects its dynamic type, so statements are
embedded as a kind tag. -/

def enginePostgreSQL : String := "postgresql"

def engineMySQL : String := "mysql"

def engineSQLite : String := "sqlite"

/-- Statement kind of `result.Queries[i].RawStmt.Stmt`, as dispatched by the
type switch in `prepareable` (vet.go lines 162-187). `otherStmt` carries a
description of any other AST node type (DDL, MERGE, VALUES, ...). -/
inductive StmtKind
  | deleteStmt
  | insertStmt
  | selectStmt
  | updateStmt
  | otherStmt (kind : String)
deriving Repr, DecidableEq

/-- Embedding of `prepareable` (vet.go lines 160-187). Determines whether a
query can be prepared based on the engine and the statement type. Only the
`Engine` field of the `config.SQL` argument is consulted by the source. -/
def prepareable (engine : String) (raw : StmtKind) : Bool :=
  if engine == enginePostgreSQL then
    match raw with
    | .deleteStmt => true
    | .insertStmt => true
    | .selectStmt => true
    | .updateStmt => true
    | .otherStmt _ => false
  else if engine == engineMySQL then
    true
  else if engine == engineSQLite then
    true
  else
    false

/-! ## Plugin data model (from the protobuf definitions) -/

/-- Embedding of `plugin.Parameter`: a 1-based position plus column
metadata.  The column metadata is opaque to `vet.go`, so it is kept as a
single string field. -/
structure PluginParameter where
  number : Int
  column : String
deriving Repr, DecidableEq

/-- Embedding of the fields of `plugin.Query` consumed by `vet.go`. -/
structure PluginQuery where
  text : String
  name : String
  cmd : String
  params : List PluginParameter
  filename : String
deriving Repr, DecidableEq

/-- Embedding of `plugin.VetParameter`. -/
structure VetParameter where
  number : Int
deriving Repr, DecidableEq

/-- Embedding of `plugin.VetQuery`. -/
structure VetQuery where
  sql : String
  name : String
  cmd : String
  params : List VetParameter
deriving Repr, DecidableEq

/-- Embedding of `plugin.VetConfig`. -/
structure VetConfig where
  version : String
  engine : String
  schema : List String
  queries : List String
deriving Repr, DecidableEq

/-- Embedding of `vetQuery` (vet.go lines 467-480).  Note that the source
calls `strings.TrimPrefix(":", q.Cmd)` — the string being trimmed is the
literal `":"` and the prefix removed from it is `q.Cmd`. -/
def vetQuery (q : PluginQuery) : VetQuery :=
  { sql := q.text
    name := q.name
    cmd := goTrimPfx ":" q.cmd
    params := q.params.map (fun p => { number := p.number }) }

/-- Embedding of the decoded `plugin.PostgreSQLExplain` plan document.  Its
tree structure is never inspected by the evaluation loop, so the decoded
payload is kept opaque. -/
structure PostgreSQLExplain where
  plan : String
deriving Repr, DecidableEq

/-- Embedding of `plugin.PostgreSQL` (a possibly-nil `explain` pointer). -/
structure PostgreSQLData where
  explain : Option PostgreSQLExplain
deriving Repr, DecidableEq

/-- Embedding of `plugin.MySQLExplain.QueryBlock`: the `message` field is
inspected by `mysqlExplainer.Explain`; the rest of the block is opaque. -/
structure MySQLQueryBlock where
  message : String
  rest : String
deriving Repr, DecidableEq

/-- Embedding of `plugin.MySQLExplain`. -/
structure MySQLExplainData where
  queryBlock : MySQLQueryBlock
deriving Repr, DecidableEq

/-- Embedding of `plugin.MySQL` (a possibly-nil `explain` pointer). -/
structure MySQLData where
  explain : Option MySQLExplainData
deriving Repr, DecidableEq

/-- Embedding of `vetEngineOutput` (vet.go lines 482-485): two
possibly-nil engine-specific explain payloads. -/
structure VetEngineOutput where
  postgresql : Option PostgreSQLData
  mysql : Option MySQLData
deriving Repr, DecidableEq

/-! ## The CEL evaluation environment

The Go code builds `evalMap : map[string]any` with keys `"query"` and
`"config"` always present and `"postgresql"`/`"mysql"` added after a
successful explain (vet.go lines 379-382 and 429-430).  Key presence is
modelled by the outer `Option`; the stored value is itself a possibly-nil
pointer, hence the inner `Option`. -/
structure EvalMap where
  query : VetQuery
  config : VetConfig
  postgresql : Option (Option PostgreSQLData)
  mysql : Option (Option MySQLData)
deriving Repr, DecidableEq

/-- Result value of a CEL program: `out.Value()` is either a Go `bool` or
some other value (whose `%v` rendering is kept for the error message). -/
inductive CelValue
  | bool (b : Bool)
  | nonBool (descr : String)
deriving Repr, DecidableEq

/-- A compiled CEL program. `Eval` either fails or yields a value; the CEL
runtime itself is an external collaborator, so the program is an oracle
function over the evaluation environment. -/
structure CelProgram where
  eval : EvalMap → Except String CelValue

/-- Embedding of the `rule` struct (vet.go lines 261-266). -/
structure Rule where
  program : Option CelProgram
  message : String
  needsPrepare : Bool
  needsExplain : Bool

/-- Embedding of the Go name constant `RuleDbPrepare`. -/
def ruleDbPrepare : String := "sqlc/db-prepare"

/-- The built-in rule installed at vet.go line 103: `{NeedsPrepare: true}`,
all other fields zero-valued. -/
def dbPrepareRule : Rule :=
  { program := none, message := "", needsPrepare := true, needsExplain := false }

/-- Rule lookup, embedding the Go map access `c.Rules[name]`.  The rules
container is an association list; names are unique by construction
(`compileRules` rejects duplicates), so `find?` agrees with map lookup. -/
def lookupRule (rules : List (String × Rule)) (nm : String) : Option Rule :=
  (rules.find? (fun p => p.1 == nm)).map (fun p => p.2)

/-! ## Rule compilation (`Vet`, vet.go lines 102-134) -/

/-- A type-checked CEL AST, produced by `env.Compile`; opaque. -/
structure CelAst where
  src : String

/-- Embedding of a rule entry of the configuration file
(`config.Rule`: `{name, rule, msg}`). -/
structure ConfRule where
  name : String
  rule : String
  msg : String

/-- The initial rules map of vet.go lines 102-104: only the built-in
prepare rule. -/
def initialRules : List (String × Rule) := [(ruleDbPrepare, dbPrepareRule)]

/-- Embedding of the rule-compilation loop of `Vet` (vet.go lines
106-134), with `env.Compile` and `env.Program` supplied as oracles.
`needsExplain` is set when the expression source text contains
`postgresql.explain` or `mysql.explain` (lines 126-131). -/
def compileRulesAux (envCompile : String → Except String CelAst)
    (envProgram : CelAst → Except String CelProgram) :
    List ConfRule → List (String × Rule) → Except String (List (String × Rule))
  | [], acc => .ok acc
  | c :: rest, acc =>
    if c.name = "" then
      .error "rules require a name"
    else if (lookupRule acc c.name).isSome then
      .error ("type-check error: a rule with the name \x27" ++ c.name ++ "\x27 already exists")
    else if c.rule = "" then
      .error ("type-check error: " ++ c.name ++ " is empty")
    else
      match envCompile c.rule with
      | .error e => .error ("type-check error: " ++ c.name ++ " " ++ e)
      | .ok a =>
        match envProgram a with
        | .error e => .error ("program construction error: " ++ c.name ++ " " ++ e)
        | .ok prg =>
          let r : Rule :=
            { program := some prg
              message := c.msg
              needsPrepare := false
              needsExplain :=
                goContains c.rule "postgresql.explain" || goContains c.rule "mysql.explain" }
          compileRulesAux envCompile envProgram rest (acc ++ [(c.name, r)])

/-- Full rule compilation: the built-in rule plus the configured rules. -/
def compileRules (envCompile : String → Except String CelAst)
    (envProgram : CelAst → Except String CelProgram)
    (confRules : List ConfRule) : Except String (List (String × Rule)) :=
  compileRulesAux envCompile envProgram confRules initialRules

/-! ## Capability providers -/

/-- Result of a Go function call that may instead end in a runtime panic. -/
inductive GoResult (α : Type)
  | ok (a : α)
  | panicked (msg : String)
deriving Repr

/-- The Go panic message raised by a nil-pointer method call. -/
def nilDerefMsg : String :=
  "runtime error: invalid memory address or nil pointer dereference"

/-- The two `preparer` implementations (vet.go lines 189-229).
`pgxConn` wraps `(*pgx.Conn).Prepare`; `dbPreparer` wraps
`(*sql.DB).PrepareContext`, which returns a statement handle (nil exactly
when it errors) together with an optional error. -/
inductive Preparer
  | pgxConn (prep : String → String → Option String)
  | dbPreparer (prepareContext : String → Option Unit × Option String)

/-- Embedding of the two `Prepare` methods.

`pgxConn.Prepare` (lines 197-200) forwards the driver error.

`dbPreparer.Prepare` (lines 225-229) runs
`s, err := p.db.PrepareContext(ctx, query); s.Close(); return err` — the
`s.Close()` call is unconditional, so when `PrepareContext` fails and
returns a nil statement handle the method dereferences a nil pointer and
panics instead of returning the error. -/
def Preparer.prepare : Preparer → String → String → GoResult (Option String)
  | .pgxConn p, nm, query => .ok (p nm query)
  | .dbPreparer pc, _nm, query =>
    match pc query with
    | (none, _err) => .panicked nilDerefMsg
    | (some _s, err) => .ok err

/-- An `explainer` capability as consumed by the evaluation loop: given the
number of database round trips already made (so that distinct calls may
behave differently), the query text and its parameters, produce engine
output or an error. -/
def ExplFn : Type :=
  Nat → String → List PluginParameter → Except String VetEngineOutput

/-! ## Explain adapters (vet.go lines 202-219 and 239-259) -/

/-- A value of Go type `any` sent to the database driver as a query
argument.  A freshly `make`-allocated `[]any` slot holds `nil`. -/
inductive GoAny
  | nil
  | ofParam (p : PluginParameter)
deriving Repr, DecidableEq

/-- One query round trip handed to a database driver: the statement text
plus the variadic argument slice. -/
structure DbCall where
  queryText : String
  args : List GoAny
deriving Repr, DecidableEq

/-- Oracle for the Postgres driver parts of `pgxConn.Explain`:
`QueryRow` + `row.Scan` into `[]json.RawMessage` followed by the
`result[0]` projection, and `pjson.Unmarshal`. -/
structure PgRowOracle where
  scanFirst : DbCall → Except String String
  unmarshalPg : String → Except String PostgreSQLExplain

/-- Embedding of `pgxConn.Explain` (vet.go lines 202-219).  Returns the
database call that was issued together with the Go return value.
`eArgs := make([]any, len(args))` allocates a slice of `len(args)` nil
interface values; the caller-supplied parameters are only used for their
count. -/
def pgxConnExplain (o : PgRowOracle) (query : String) (args : List PluginParameter) :
    DbCall × Except String VetEngineOutput :=
  let eQuery := "EXPLAIN (ANALYZE false, VERBOSE, COSTS, SETTINGS, BUFFERS, FORMAT JSON) " ++ query
  let eArgs : List GoAny := List.replicate args.length GoAny.nil
  let call : DbCall := { queryText := eQuery, args := eArgs }
  (call,
    match o.scanFirst call with
    | .error e => .error e
    | .ok raw =>
      match o.unmarshalPg raw with
      | .error e => .error e
      | .ok explain =>
        .ok { postgresql := some { explain := some explain }, mysql := none })

/-- Oracle for the MySQL driver parts of `mysqlExplainer.Explain`:
`QueryRowContext` + `row.Scan` into a single `json.RawMessage`, and
`pjson.Unmarshal`. -/
structure MyRowOracle where
  scan : DbCall → Except String String
  unmarshalMy : String → Except String MySQLExplainData

/-- Embedding of `mysqlExplainer.Explain` (vet.go lines 239-259),
including the conversion of a non-empty `QueryBlock.Message` into an
error.  As in the Postgres adapter, `eArgs := make([]any, len(args))` is a
slice of nils. -/
def mysqlExplainerExplain (o : MyRowOracle) (query : String) (args : List PluginParameter) :
    DbCall × Except String VetEngineOutput :=
  let eQuery := "EXPLAIN FORMAT=JSON " ++ query
  let eArgs : List GoAny := List.replicate args.length GoAny.nil
  let call : DbCall := { queryText := eQuery, args := eArgs }
  (call,
    match o.scan call with
    | .error e => .error e
    | .ok raw =>
      match o.unmarshalMy raw with
      | .error e => .error e
      | .ok explain =>
        if explain.queryBlock.message ≠ "" then
          .error ("mysql explain: " ++ explain.queryBlock.message)
        else
          .ok { postgresql := none, mysql := some { explain := some explain } })

/-! ## Observable run state -/

/-- A database round trip made by the evaluation loop.  `explainCall`
records whether the call returned successfully. -/
inductive Event
  | prepareCall (stmtName : String) (queryText : String)
  | explainCall (queryText : String) (ok : Bool)
deriving Repr, DecidableEq

/-- Observable machine state of a run: the lines written to stderr and the
database round trips made. -/
structure IOState where
  stderr : List String
  trace : List Event
deriving Repr, DecidableEq

/-- Loop state of `checkSQL`: the observable state plus the local
`errored` flag (vet.go line 368). -/
structure LoopState where
  io : IOState
  errored : Bool
deriving Repr, DecidableEq

/-- Write one diagnostic line to stderr and set `errored = true`.  Every
`fmt.Fprintf(c.Stderr, ...)` in the evaluation loop is immediately
followed by `errored = true` in the source. -/
def LoopState.report (ls : LoopState) (line : String) : LoopState :=
  { ls with io := { ls.io with stderr := ls.io.stderr ++ [line] }, errored := true }

/-- Record a database round trip. -/
def LoopState.record (ls : LoopState) (e : Event) : LoopState :=
  { ls with io := { ls.io with trace := ls.io.trace ++ [e] } }

/-! ## The evaluation loop (`checker.checkSQL`, vet.go lines 289-456) -/

/-- The fields of `config.SQL` consumed by the evaluation loop: target
engine, optional database URI, and the configured rule-name list. -/
structure SQLConfig where
  engine : String
  database : Option String
  rules : List String

/-- Per-query input: the `plugin.Query` from `req.Queries[i]`, together
with the `@sqlc-vet-disable` flag and the raw statement kind taken from
`result.Queries[i]`. -/
structure QueryRec where
  q : PluginQuery
  vetDisable : Bool
  rawStmt : StmtKind

/-- Generated prepared-statement name of vet.go line 401:
`fmt.Sprintf("sqlc_vet_%d_%d", time.Now().Unix(), i)`, with the clock
reading supplied as `now`. -/
def prepStmtName (now i : Nat) : String :=
  "sqlc_vet_" ++ toString now ++ "_" ++ toString i

/-- Diagnostic line of the three-field format string `"%s: %s: %s\n"`
(vet.go line 444). -/
def diagLine3 (filename qname third : String) : String :=
  filename ++ ": " ++ qname ++ ": " ++ third

/-- Diagnostic line of the four-field format strings
`"%s: %s: %s: ...%s\n"` (vet.go lines 392, 397, 403, 418, 424, 446): the
three header fields followed by `": "` and the rest of the message. -/
def diagLine (filename qname third rest : String) : String :=
  filename ++ ": " ++ qname ++ ": " ++ third ++ ": " ++ rest

/-- Outcome of the prepare block (vet.go lines 390-407) for one rule:
either `continue` to the next rule, fall through to program evaluation, or
a Go panic. -/
inductive PrepOutcome
  | skipRule (ls : LoopState)
  | proceed (ls : LoopState)
  | panicked (ls : LoopState) (msg : String)

/-- Embedding of the prepare block, vet.go lines 390-407.  Note the
shadowing in the source: line 401 introduces a new variable `name` (the
generated statement name) which the `Fprintf` on line 403 then uses as the
third field of the diagnostic, in place of the rule name. -/
def rulePrepareStep (prep : Option Preparer) (s : SQLConfig) (now i : Nat)
    (qr : QueryRec) (nm : String) (rule : Rule) (ls : LoopState) : PrepOutcome :=
  if rule.needsPrepare then
    match prep with
    | none =>
      .skipRule (ls.report (diagLine qr.q.filename qr.q.name nm
        "error preparing query: database connection required"))
    | some p =>
      if !prepareable s.engine qr.rawStmt then
        .skipRule (ls.report (diagLine qr.q.filename qr.q.name nm
          "error preparing query: query type is unpreparable"))
      else
        let pname := prepStmtName now i
        let ls := ls.record (.prepareCall pname qr.q.text)
        match p.prepare pname qr.q.text with
        | .panicked m => .panicked ls m
        | .ok (some e) =>
          .skipRule (ls.report (diagLine qr.q.filename qr.q.name pname
            ("error preparing query: " ++ e)))
        | .ok none => .proceed ls
  else
    .proceed ls

/-- Result of processing one rule for one query: continue with the next
rule (carrying the possibly extended evaluation environment), or a fatal
`return err` out of `checkSQL`, or a Go panic. -/
inductive RuleStep
  | next (ls : LoopState) (em : EvalMap)
  | fatal (ls : LoopState) (msg : String)
  | panicked (ls : LoopState) (msg : String)

/-- Embedding of the expression evaluation and violation reporting,
vet.go lines 433-449. -/
def ruleEvalStep (prog : CelProgram) (rule : Rule) (qr : QueryRec) (nm : String)
    (ls : LoopState) (em : EvalMap) : RuleStep :=
  match prog.eval em with
  | .error e => .fatal ls e
  | .ok out =>
    match out with
    | .nonBool d => .fatal ls ("expression returned non-bool value: " ++ d)
    | .bool tripped =>
      if tripped then
        if rule.message = "" then
          .next (ls.report (diagLine3 qr.q.filename qr.q.name nm)) em
        else
          .next (ls.report (diagLine qr.q.filename qr.q.name nm rule.message)) em
      else
        .next ls em

/-- Embedding of vet.go lines 409-449: the `rule.Program == nil`
short-circuit, the explain block with its memoization check
(`_, pgsqlOK := evalMap["postgresql"]; _, mysqlOK := evalMap["mysql"]`),
and the expression evaluation. -/
def ruleProgramStep (expl : Option ExplFn) (qr : QueryRec) (nm : String) (rule : Rule)
    (ls : LoopState) (em : EvalMap) : RuleStep :=
  match rule.program with
  | none => .next ls em
  | some prog =>
    let pgsqlOK := em.postgresql.isSome
    let mysqlOK := em.mysql.isSome
    if rule.needsExplain && !(pgsqlOK || mysqlOK) then
      match expl with
      | none =>
        .next (ls.report (diagLine qr.q.filename qr.q.name nm
          "error explaining query: database connection required")) em
      | some ef =>
        match ef ls.io.trace.length qr.q.text qr.q.params with
        | .error e =>
          .next (((ls.record (.explainCall qr.q.text false))).report
            (diagLine qr.q.filename qr.q.name nm ("error explaining query: " ++ e))) em
        | .ok engineOutput =>
          let ls := ls.record (.explainCall qr.q.text true)
          let em := { em with
            postgresql := some engineOutput.postgresql
            mysql := some engineOutput.mysql }
          ruleEvalStep prog rule qr nm ls em
    else
      ruleEvalStep prog rule qr nm ls em

/-- Embedding of one iteration of the rules loop, vet.go lines 384-450:
rule lookup, prepare block, program/explain/eval blocks. -/
def checkRule (prep : Option Preparer) (expl : Option ExplFn) (s : SQLConfig)
    (now i : Nat) (rules : List (String × Rule)) (qr : QueryRec) (nm : String)
    (ls : LoopState) (em : EvalMap) : RuleStep :=
  match lookupRule rules nm with
  | none =>
    .fatal ls ("type-check error: a rule with the name \x27" ++ nm ++ "\x27 does not exist")
  | some rule =>
    match rulePrepareStep prep s now i qr nm rule ls with
    | .panicked ls m => .panicked ls m
    | .skipRule ls => .next ls em
    | .proceed ls => ruleProgramStep expl qr nm rule ls em

/-- Result of the rules loop for one query. -/
inductive RulesResult
  | done (ls : LoopState) (em : EvalMap)
  | fatal (ls : LoopState) (msg : String)
  | panicked (ls : LoopState) (msg : String)

/-- The loop state carried by a rules-loop result. -/
def RulesResult.state : RulesResult → LoopState
  | .done ls _ => ls
  | .fatal ls _ => ls
  | .panicked ls _ => ls

/-- Embedding of the inner `for _, name := range s.Rules` loop
(vet.go lines 384-450). -/
def checkQueryRules (prep : Option Preparer) (expl : Option ExplFn) (s : SQLConfig)
    (now i : Nat) (rules : List (String × Rule)) (qr : QueryRec) :
    List String → LoopState → EvalMap → RulesResult
  | [], ls, em => .done ls em
  | nm :: rest, ls, em =>
    match checkRule prep expl s now i rules qr nm ls em with
    | .next ls em => checkQueryRules prep expl s now i rules qr rest ls em
    | .fatal ls m => .fatal ls m
    | .panicked ls m => .panicked ls m

/-- Result of the queries loop. -/
inductive QueriesResult
  | done (ls : LoopState)
  | fatal (ls : LoopState) (msg : String)
  | panicked (ls : LoopState) (msg : String)

/-- The loop state carried by a queries-loop result. -/
def QueriesResult.state : QueriesResult → LoopState
  | .done ls => ls
  | .fatal ls _ => ls
  | .panicked ls _ => ls

/-- Embedding of the outer `for i, query := range req.Queries` loop
(vet.go lines 371-451): the `@sqlc-vet-disable` skip, the fresh
per-query evaluation environment with only `query` and `config` bound
(lines 379-382), and the rules loop. -/
def checkQueries (prep : Option Preparer) (expl : Option ExplFn) (s : SQLConfig)
    (now : Nat) (rules : List (String × Rule)) (cfg : VetConfig) :
    Nat → List QueryRec → LoopState → QueriesResult
  | _, [], ls => .done ls
  | i, qr :: rest, ls =>
    if qr.vetDisable then
      checkQueries prep expl s now rules cfg (i + 1) rest ls
    else
      let em : EvalMap :=
        { query := vetQuery qr.q, config := cfg, postgresql := none, mysql := none }
      match checkQueryRules prep expl s now i rules qr s.rules ls em with
      | .done ls _ => checkQueries prep expl s now rules cfg (i + 1) rest ls
      | .fatal ls m => .fatal ls m
      | .panicked ls m => .panicked ls m

/-! ## Database connection setup (vet.go lines 316-366) -/

/-- Oracle describing how the configured database behaves for one group:
connection/ping outcomes and the driver-level behaviours of the prepare
and explain capabilities. -/
structure DbWorld where
  pgxConnErr : Option String
  pgxPrep : String → String → Option String
  pgxExpl : ExplFn
  sqlOpenErr : Option String
  dbPrepCtx : String → Option Unit × Option String
  myExpl : ExplFn

/-- Embedding of vet.go lines 316-366: when a database is configured,
connections may be administratively disabled (a fatal error), otherwise
the engine selects the adapters.  SQLite deliberately gets no explainer.
Connection establishment and ping failures share the
`database: connection error:` message in the source and are merged into
one oracle per driver.  DSN environment-variable substitution (`c.DSN`)
never fails and is irrelevant to the adapters chosen, so it is not
modelled. -/
def setupConn (w : DbWorld) (noDatabase : Bool) (s : SQLConfig) :
    Except String (Option Preparer × Option ExplFn) :=
  match s.database with
  | none => .ok (none, none)
  | some _dburl =>
    if noDatabase then
      .error "database: connections disabled via command line flag"
    else if s.engine == enginePostgreSQL then
      match w.pgxConnErr with
      | some e => .error ("database: connection error: " ++ e)
      | none => .ok (some (.pgxConn w.pgxPrep), some w.pgxExpl)
    else if s.engine == engineMySQL then
      match w.sqlOpenErr with
      | some e => .error ("database: connection error: " ++ e)
      | none => .ok (some (.dbPreparer w.dbPrepCtx), some w.myExpl)
    else if s.engine == engineSQLite then
      match w.sqlOpenErr with
      | some e => .error ("database: connection error: " ++ e)
      | none => .ok (some (.dbPreparer w.dbPrepCtx), none)
    else
      .error ("unsupported database uri: " ++ s.engine)

/-! ## `checkSQL` and the `Vet` run loop -/

/-- Result of `checkSQL` for one group, as seen by `Vet`: a nil error,
`ErrFailedChecks`, some other (fatal) error, or a propagating panic. -/
inductive GroupResult
  | ok
  | failedChecks
  | fatal (msg : String)
  | panicked (msg : String)
deriving Repr, DecidableEq

/-- Input for one `config.SQL` group: its configuration, whether the
parser reported failures (vet.go lines 311-314; the parser is an external
collaborator whose own stderr output is out of scope here), the derived
`VetConfig`, the parsed queries, and the database world behind the
configured URI. -/
structure GroupInput where
  s : SQLConfig
  parseFailed : Bool
  cfg : VetConfig
  queries : List QueryRec
  world : DbWorld

/-- Embedding of `checker.checkSQL` (vet.go lines 289-456): parse, set up
the database connection, run the queries loop, and turn the local
`errored` flag into `ErrFailedChecks`. -/
def checkSQL (noDb : Bool) (rules : List (String × Rule)) (now : Nat)
    (g : GroupInput) (io : IOState) : IOState × GroupResult :=
  if g.parseFailed then
    (io, .failedChecks)
  else
    match setupConn g.world noDb g.s with
    | .error e => (io, .fatal e)
    | .ok (prep, expl) =>
      match checkQueries prep expl g.s now rules g.cfg 0 g.queries { io := io, errored := false } with
      | .done ls => (ls.io, if ls.errored then .failedChecks else .ok)
      | .fatal ls m => (ls.io, .fatal m)
      | .panicked ls m => (ls.io, .panicked m)

/-- Overall result of a vet run. -/
inductive RunResult
  | ok
  | failedChecks
  | panicked (msg : String)
deriving Repr, DecidableEq

/-- Embedding of the `for _, sql := range conf.SQL` loop of `Vet`
(vet.go lines 145-157): a `checkSQL` error that is not `ErrFailedChecks`
is printed to stderr, the `errored` flag is set either way, and the loop
continues with the next group; at the end `ErrFailedChecks` is returned
exactly when the flag is set. -/
def vetLoop (noDb : Bool) (rules : List (String × Rule)) (now : Nat) :
    List GroupInput → IOState → Bool → IOState × RunResult
  | [], io, errored => (io, if errored then .failedChecks else .ok)
  | g :: rest, io, errored =>
    match checkSQL noDb rules now g io with
    | (io, .ok) => vetLoop noDb rules now rest io errored
    | (io, .failedChecks) => vetLoop noDb rules now rest io true
    | (io, .fatal m) => vetLoop noDb rules now rest { io with stderr := io.stderr ++ [m] } true
    | (io, .panicked m) => (io, .panicked m)

/-! ## Observers over results and traces -/

/-- The loop state carried by a rule-step result. -/
def RuleStep.state : RuleStep → LoopState
  | .next ls _ => ls
  | .fatal ls _ => ls
  | .panicked ls _ => ls

/-- The loop state carried by a prepare-block outcome. -/
def PrepOutcome.state : PrepOutcome → LoopState
  | .skipRule ls => ls
  | .proceed ls => ls
  | .panicked ls _ => ls

/-- Key-presence check of vet.go line 415-416: is explain output already
bound in the evaluation environment? -/
def memoized (em : EvalMap) : Bool :=
  em.postgresql.isSome || em.mysql.isSome

/-- Number of explain round trips still allowed before the memoization
bound for a query would be exceeded. -/
def explBudget (em : EvalMap) : Nat :=
  if memoized em then 0 else 1

/-- Recognize an explain round trip. -/
def isExplainEvent : Event → Bool
  | .explainCall _ _ => true
  | .prepareCall _ _ => false

/-- Recognize a successful explain round trip. -/
def isSuccExplain : Event → Bool
  | .explainCall _ true => true
  | _ => false

/-- Number of explain round trips in a trace. -/
def explainCount (tr : List Event) : Nat :=
  (tr.filter isExplainEvent).length

/-- Number of successful explain round trips in a trace. -/
def succExplainCount (tr : List Event) : Nat :=
  (tr.filter isSuccExplain).length

/-- Shape asserted by the specification for every diagnostic line: the
third field is one of the group's configured rule names, optionally
followed by a message.  Decidable so that concrete lines can be checked. -/
def claimLineShape (ruleNames : List String) (filename qname line : String) : Bool :=
  ruleNames.any (fun r =>
    line == diagLine3 filename qname r ||
    (diagLine3 filename qname r ++ ": ").toList.isPrefixOf line.toList)

/-- Acceptable third field of a diagnostic line emitted by the evaluation
loop: a configured rule name, or — on engine prepare-error lines only — a
generated prepared-statement name. -/
def goodThird (s : SQLConfig) (now : Nat) (third : String) : Prop :=
  third ∈ s.rules ∨ ∃ i : Nat, third = prepStmtName now i

/-- Shape of every diagnostic line the evaluation loop can emit for a
group: header fields naming one of the group's queries, then an acceptable
third field, optionally followed by a message. -/
def goodLine (s : SQLConfig) (now : Nat) (qs : List QueryRec) (line : String) : Prop :=
  ∃ qr ∈ qs, ∃ third, goodThird s now third ∧
    (line = diagLine3 qr.q.filename qr.q.name third ∨
     ∃ msg, line = diagLine qr.q.filename qr.q.name third msg)

/-- The stderr of `io₂` extends that of `io₁` by lines of the allowed
diagnostic shape. -/
def stderrExt (s : SQLConfig) (now : Nat) (qs : List QueryRec) (io₁ io₂ : IOState) : Prop :=
  ∃ Δ, io₂.stderr = io₁.stderr ++ Δ ∧ ∀ l ∈ Δ, goodLine s now qs l

/-! ## Concrete fixtures used by counterexamples and witnesses -/

/-- An explainer oracle that always fails (its result is irrelevant for
runs that never reach it, too). -/
def failExpl (msg : String) : ExplFn := fun _ _ _ => .error msg

/-- A database world whose prepare capabilities succeed and whose
explainers fail with `"explain broke"`. -/
def okPrepWorld : DbWorld :=
  { pgxConnErr := none
    pgxPrep := fun _ _ => none
    pgxExpl := failExpl "explain broke"
    sqlOpenErr := none
    dbPrepCtx := fun _ => (some (), none)
    myExpl := failExpl "explain broke" }

/-- A shared trivial `VetConfig`. -/
def cfg0 : VetConfig :=
  { version := "2", engine := "postgresql", schema := ["schema.sql"], queries := ["query.sql"] }

/-- CEL program of the claim C5 example rule
`query.cmd == ":many" && !query.sql.contains("LIMIT")`, with the standard
CEL semantics of string equality and `contains`. -/
def needsLimitProg : CelProgram :=
  { eval := fun em => .ok (.bool (em.query.cmd == ":many" && !(goContains em.query.sql "LIMIT"))) }

/-- A compiled rule wrapping `needsLimitProg`. -/
def needsLimitRule : Rule :=
  { program := some needsLimitProg, message := "", needsPrepare := false, needsExplain := false }

/-- A CEL program that evaluates to a non-boolean value. -/
def nonBoolProg : CelProgram :=
  { eval := fun _ => .ok (.nonBool "no such overload") }

/-- A CEL program that always trips. -/
def alwaysTripProg : CelProgram :=
  { eval := fun _ => .ok (.bool true) }

/-- A CEL program that never trips. -/
def neverTripProg : CelProgram :=
  { eval := fun _ => .ok (.bool false) }

/-- A compiled rule that always trips, without a configured message. -/
def alwaysTripRule : Rule :=
  { program := some alwaysTripProg, message := "", needsPrepare := false, needsExplain := false }

/-- A compiled rule that needs explain output and never trips. -/
def explainNeverTripRule : Rule :=
  { program := some neverTripProg, message := "", needsPrepare := false, needsExplain := true }

/-- Fixture query used by several concrete runs. -/
def qSelectOne : PluginQuery :=
  { text := "SELECT 1", name := "GetOne", cmd := ":one", params := [], filename := "q.sql" }

/-- C1 fixture: a MySQL world whose `PrepareContext` fails, returning a
nil statement handle together with a driver error. -/
def c1World : DbWorld :=
  { pgxConnErr := none
    pgxPrep := fun _ _ => none
    pgxExpl := failExpl "unused"
    sqlOpenErr := none
    dbPrepCtx := fun _ => (none, some "Error 1064: syntax error")
    myExpl := failExpl "unused" }

/-- C1 fixture: a MySQL group with a configured database and the built-in
prepare rule, whose single query fails to prepare. -/
def c1Group : GroupInput :=
  { s := { engine := "mysql", database := some "mysql://u@localhost/db", rules := [ruleDbPrepare] }
    parseFailed := false
    cfg := cfg0
    queries := [{ q := { text := "SELECT malformed(", name := "GetBroken", cmd := ":one",
                         params := [], filename := "q.sql" }
                  vetDisable := false
                  rawStmt := .selectStmt }]
    world := c1World }

/-- C2 fixture: rules map holding the built-in rule, a rule whose
expression yields a non-boolean, and an always-tripping rule. -/
def c2Rules : List (String × Rule) :=
  initialRules ++
    [("bad", { program := some nonBoolProg, message := "", needsPrepare := false,
               needsExplain := false }),
     ("viol", alwaysTripRule)]

/-- C2 fixture: first group, whose rule evaluation yields a non-boolean. -/
def c2GroupA : GroupInput :=
  { s := { engine := "postgresql", database := none, rules := ["bad"] }
    parseFailed := false
    cfg := cfg0
    queries := [{ q := { text := "SELECT 1", name := "Q1", cmd := ":one", params := [],
                         filename := "f1.sql" }
                  vetDisable := false, rawStmt := .selectStmt }]
    world := okPrepWorld }

/-- C2 fixture: second group, with an ordinary violation. -/
def c2GroupB : GroupInput :=
  { s := { engine := "postgresql", database := none, rules := ["viol"] }
    parseFailed := false
    cfg := cfg0
    queries := [{ q := { text := "SELECT 2", name := "Q2", cmd := ":one", params := [],
                         filename := "f2.sql" }
                  vetDisable := false, rawStmt := .selectStmt }]
    world := okPrepWorld }

/-- C3 fixture: rules map holding the built-in rule and one tripping
rule named `r1`; the name `missing` is not in it. -/
def c3Rules : List (String × Rule) :=
  initialRules ++ [("r1", alwaysTripRule)]

/-- C3 fixture: a group whose configured rule-name list is
`["r1", "missing"]`. -/
def c3Group : GroupInput :=
  { s := { engine := "postgresql", database := none, rules := ["r1", "missing"] }
    parseFailed := false
    cfg := cfg0
    queries := [{ q := { text := "SELECT 4", name := "Q4", cmd := ":one", params := [],
                         filename := "f4.sql" }
                  vetDisable := false, rawStmt := .selectStmt }]
    world := okPrepWorld }

/-- C4 fixture: a compile oracle that type-checks every expression. -/
def c4Compile : String → Except String CelAst := fun s => .ok { src := s }

/-- C4 fixture: a program-construction oracle that always succeeds. -/
def c4Program : CelAst → Except String CelProgram := fun _ => .ok neverTripProg

/-- C4 fixture: a configured rule whose expression references
`mysql.explain` but not `postgresql.explain`. -/
def c4ConfRule : ConfRule :=
  { name := "perf", rule := "mysql.explain.query_block.select_id == 1", msg := "" }

/-- C4 fixture: the rule that compilation produces for `c4ConfRule`. -/
def c4PerfRule : Rule :=
  { program := some neverTripProg, message := "", needsPrepare := false, needsExplain := true }

/-- C5 fixture: group applying the `needs-limit` rule to a `:many` query
whose SQL text does not contain `LIMIT`. -/
def c5Group : GroupInput :=
  { s := { engine := "postgresql", database := none, rules := ["needs-limit"] }
    parseFailed := false
    cfg := cfg0
    queries := [{ q := { text := "SELECT id FROM users", name := "ListUsers", cmd := ":many",
                         params := [], filename := "q.sql" }
                  vetDisable := false, rawStmt := .selectStmt }]
    world := okPrepWorld }

/-- C5 fixture: compiled rules for the `needs-limit` example. -/
def c5Rules : List (String × Rule) :=
  initialRules ++ [("needs-limit", needsLimitRule)]

/-- C6 fixture: a group with a configured database, to be run with
connections administratively disabled. -/
def c6Group : GroupInput :=
  { s := { engine := "mysql", database := some "dsn", rules := [ruleDbPrepare] }
    parseFailed := false
    cfg := cfg0
    queries := [{ q := qSelectOne, vetDisable := false, rawStmt := .selectStmt }]
    world := okPrepWorld }

/-- C7 fixture: rules map with two explain-needing rules. -/
def c7Rules : List (String × Rule) :=
  initialRules ++ [("r1", explainNeverTripRule), ("r2", explainNeverTripRule)]

/-- C7 fixture: a MySQL group with a database whose explainer always
fails, and two explain-needing rules over one query. -/
def c7Group : GroupInput :=
  { s := { engine := "mysql", database := some "dsn", rules := ["r1", "r2"] }
    parseFailed := false
    cfg := cfg0
    queries := [{ q := { text := "SELECT 3", name := "Q3", cmd := ":many", params := [],
                         filename := "f3.sql" }
                  vetDisable := false, rawStmt := .selectStmt }]
    world := okPrepWorld }

/-- C9 fixture: a Postgres world whose engine `Prepare` fails with
`"boom"`. -/
def c9World : DbWorld :=
  { pgxConnErr := none
    pgxPrep := fun _ _ => some "boom"
    pgxExpl := failExpl "unused"
    sqlOpenErr := none
    dbPrepCtx := fun _ => (some (), none)
    myExpl := failExpl "unused" }

/-- C9 fixture: a Postgres group with a configured database and the
built-in prepare rule, whose single query fails to prepare. -/
def c9Group : GroupInput :=
  { s := { engine := "postgresql", database := some "postgres://x", rules := [ruleDbPrepare] }
    parseFailed := false
    cfg := cfg0
    queries := [{ q := { text := "SELECT 1", name := "GetX", cmd := ":one", params := [],
                         filename := "q.sql" }
                  vetDisable := false, rawStmt := .selectStmt }]
    world := c9World }

/-- C10 fixture: a Postgres row oracle (contents irrelevant to the issued
call). -/
def c10PgOracle : PgRowOracle :=
  { scanFirst := fun _ => .error "no rows", unmarshalPg := fun _ => .error "bad json" }

/-- C10 fixture: a MySQL row oracle. -/
def c10MyOracle : MyRowOracle :=
  { scan := fun _ => .error "no rows", unmarshalMy := fun _ => .error "bad json" }

/-- C10 fixture: two parameters with distinct metadata. -/
def c10Params : List PluginParameter :=
  [{ number := 1, column := "users.id" }, { number := 2, column := "users.name" }]

/-! # Theorems -/

/-! ## Helper lemmas about the loops -/

/-- Unfolding of one step of the rules loop. -/
theorem checkQueryRules_cons (prep : Option Preparer) (expl : Option ExplFn) (s : SQLConfig)
    (now i : Nat) (rules : List (String × Rule)) (qr : QueryRec) (nm : String)
    (rest : List String) (ls : LoopState) (em : EvalMap) :
    checkQueryRules prep expl s now i rules qr (nm :: rest) ls em =
      match checkRule prep expl s now i rules qr nm ls em with
      | .next ls em => checkQueryRules prep expl s now i rules qr rest ls em
      | .fatal ls m => RulesResult.fatal ls m
      | .panicked ls m => RulesResult.panicked ls m :=
  rfl

/-- Unfolding of one step of the queries loop. -/
theorem checkQueries_cons (prep : Option Preparer) (expl : Option ExplFn) (s : SQLConfig)
    (now : Nat) (rules : List (String × Rule)) (cfg : VetConfig) (i : Nat)
    (qr : QueryRec) (rest : List QueryRec) (ls : LoopState) :
    checkQueries prep expl s now rules cfg i (qr :: rest) ls =
      if qr.vetDisable then
        checkQueries prep expl s now rules cfg (i + 1) rest ls
      else
        match checkQueryRules prep expl s now i rules qr s.rules ls
          { query := vetQuery qr.q, config := cfg, postgresql := none, mysql := none } with
        | .done ls _ => checkQueries prep expl s now rules cfg (i + 1) rest ls
        | .fatal ls m => QueriesResult.fatal ls m
        | .panicked ls m => QueriesResult.panicked ls m :=
  rfl

/-- Unfolding of one step of the run loop over groups. -/
theorem vetLoop_cons (noDb : Bool) (rules : List (String × Rule)) (now : Nat)
    (g : GroupInput) (rest : List GroupInput) (io : IOState) (errored : Bool) :
    vetLoop noDb rules now (g :: rest) io errored =
      match checkSQL noDb rules now g io with
      | (io, .ok) => vetLoop noDb rules now rest io errored
      | (io, .failedChecks) => vetLoop noDb rules now rest io true
      | (io, .fatal m) => vetLoop noDb rules now rest { io with stderr := io.stderr ++ [m] } true
      | (io, .panicked m) => (io, .panicked m) :=
  rfl

/-- Splitting the rules loop at an append. -/
theorem checkQueryRules_append (prep : Option Preparer) (expl : Option ExplFn) (s : SQLConfig)
    (now i : Nat) (rules : List (String × Rule)) (qr : QueryRec) :
    ∀ (l₁ l₂ : List String) (ls : LoopState) (em : EvalMap),
      checkQueryRules prep expl s now i rules qr (l₁ ++ l₂) ls em =
        match checkQueryRules prep expl s now i rules qr l₁ ls em with
        | .done ls em => checkQueryRules prep expl s now i rules qr l₂ ls em
        | .fatal ls m => RulesResult.fatal ls m
        | .panicked ls m => RulesResult.panicked ls m := by
  intro l₁
  induction l₁ with
  | nil => intro l₂ ls em; rfl
  | cons nm rest ih =>
    intro l₂ ls em
    rw [List.cons_append, checkQueryRules_cons, checkQueryRules_cons]
    cases checkRule prep expl s now i rules qr nm ls em with
    | next ls' em' => exact ih l₂ ls' em'
    | fatal ls' m => rfl
    | panicked ls' m => rfl

/-- Once the run-level `errored` flag is set, the run can only end in the
failed-checks signal (or die in a panic); it never reports success. -/
theorem vetLoop_errored_result (noDb : Bool) (rules : List (String × Rule)) (now : Nat) :
    ∀ (groups : List GroupInput) (io : IOState),
      (vetLoop noDb rules now groups io true).2 = .failedChecks ∨
      ∃ m, (vetLoop noDb rules now groups io true).2 = .panicked m := by
  intro groups
  induction groups with
  | nil => intro io; left; rfl
  | cons g rest ih =>
    intro io
    rcases h : checkSQL noDb rules now g io with ⟨io', r⟩
    rw [vetLoop_cons, h]
    cases r with
    | ok => exact ih io'
    | failedChecks => exact ih io'
    | fatal m => exact ih _
    | panicked m => exact Or.inr ⟨m, rfl⟩

/-- A fatal `checkSQL` error is printed to stderr, sets the run-level flag
and the run continues with the remaining groups. -/
theorem vetLoop_cons_fatal (noDb : Bool) (rules : List (String × Rule)) (now : Nat)
    (g : GroupInput) (rest : List GroupInput) (io io' : IOState) (m : String) (errored : Bool)
    (h : checkSQL noDb rules now g io = (io', .fatal m)) :
    vetLoop noDb rules now (g :: rest) io errored =
      vetLoop noDb rules now rest { io' with stderr := io'.stderr ++ [m] } true := by
  rw [vetLoop_cons, h]

/-- The compilation loop only ever appends to its accumulator. -/
theorem compileRulesAux_acc_extends (ec : String → Except String CelAst)
    (ep : CelAst → Except String CelProgram) :
    ∀ (crs : List ConfRule) (acc m : List (String × Rule)),
      compileRulesAux ec ep crs acc = .ok m → ∃ ext, m = acc ++ ext := by
  intro crs
  induction crs with
  | nil =>
    intro acc m h
    simp only [compileRulesAux, Except.ok.injEq] at h
    exact ⟨[], by rw [← h, List.append_nil]⟩
  | cons c rest ih =>
    intro acc m h
    simp only [compileRulesAux] at h
    split at h
    · simp at h
    · split at h
      · simp at h
      · split at h
        · simp at h
        · split at h
          · simp at h
          · split at h
            · simp at h
            · rcases ih _ _ h with ⟨ext, hext⟩
              exact ⟨_, by rw [hext, List.append_assoc]⟩

/-- Every entry of a successfully compiled rule map is either an entry of
the starting accumulator or stems from a configured rule, whose
`needsExplain` flag is the textual containment disjunction. -/
theorem compileRulesAux_mem_flag (ec : String → Except String CelAst)
    (ep : CelAst → Except String CelProgram) :
    ∀ (crs : List ConfRule) (acc m : List (String × Rule)),
      compileRulesAux ec ep crs acc = .ok m →
      ∀ p ∈ m, p ∈ acc ∨ ∃ c ∈ crs, p.1 = c.name ∧
        p.2.needsExplain =
          (goContains c.rule "postgresql.explain" || goContains c.rule "mysql.explain") := by
  intro crs
  induction crs with
  | nil =>
    intro acc m h p hp
    simp only [compileRulesAux, Except.ok.injEq] at h
    exact Or.inl (h ▸ hp)
  | cons c rest ih =>
    intro acc m h p hp
    simp only [compileRulesAux] at h
    split at h
    · simp at h
    · split at h
      · simp at h
      · split at h
        · simp at h
        · split at h
          · simp at h
          · split at h
            · simp at h
            · rcases ih _ _ h p hp with hacc | ⟨c', hc', hname, hflag⟩
              · rcases List.mem_append.mp hacc with hl | hr
                · exact Or.inl hl
                · refine Or.inr ⟨c, List.mem_cons_self c rest, ?_, ?_⟩
                  · rw [List.mem_singleton.mp hr]
                  · rw [List.mem_singleton.mp hr]
              · exact Or.inr ⟨c', List.mem_cons_of_mem c hc', hname, hflag⟩

/-! ## Claim C2 -/

/-- C2 (amended): when a compiled rule expression evaluates to a
non-boolean value on some query, `checkSQL` aborts the current group at
that point with the fatal message `expression returned non-bool value:
...` — no further rules for that query and no further queries of that
group are evaluated (the outcome does not depend on them) — the message is
printed once to the error stream, the run continues with the remaining
groups, and (absent a later panic) the run terminates with the ordinary
failed-checks signal rather than a distinct one. -/
theorem c2_amended_nonbool_aborts_group :
    (∀ (prog : CelProgram) (rule : Rule) (qr : QueryRec) (nm : String)
        (ls : LoopState) (em : EvalMap) (d : String),
      prog.eval em = .ok (.nonBool d) →
      ruleEvalStep prog rule qr nm ls em =
        .fatal ls ("expression returned non-bool value: " ++ d)) ∧
    (∀ prep expl s now i rules qr nm (rest₁ rest₂ : List String) ls em ls' m,
      checkRule prep expl s now i rules qr nm ls em = .fatal ls' m →
      checkQueryRules prep expl s now i rules qr (nm :: rest₁) ls em = .fatal ls' m ∧
      checkQueryRules prep expl s now i rules qr (nm :: rest₂) ls em =
        checkQueryRules prep expl s now i rules qr (nm :: rest₁) ls em) ∧
    (∀ prep expl s now rules cfg i qr (qs₁ qs₂ : List QueryRec) ls ls' m,
      qr.vetDisable = false →
      checkQueryRules prep expl s now i rules qr s.rules ls
        { query := vetQuery qr.q, config := cfg, postgresql := none, mysql := none } =
        .fatal ls' m →
      checkQueries prep expl s now rules cfg i (qr :: qs₁) ls = .fatal ls' m ∧
      checkQueries prep expl s now rules cfg i (qr :: qs₂) ls =
        checkQueries prep expl s now rules cfg i (qr :: qs₁) ls) ∧
    (∀ noDb rules now g rest io io' m errored,
      checkSQL noDb rules now g io = (io', .fatal m) →
      vetLoop noDb rules now (g :: rest) io errored =
        vetLoop noDb rules now rest { io' with stderr := io'.stderr ++ [m] } true) ∧
    (∀ noDb rules now groups io,
      (vetLoop noDb rules now groups io true).2 = .failedChecks ∨
      ∃ pm, (vetLoop noDb rules now groups io true).2 = .panicked pm) := by
  refine ⟨?_, ?_, ?_, ?_, ?_⟩
  · intro prog rule qr nm ls em d h
    unfold ruleEvalStep
    rw [h]
  · intro prep expl s now i rules qr nm rest₁ rest₂ ls em ls' m h
    constructor
    · rw [checkQueryRules_cons, h]
    · rw [checkQueryRules_cons, h, checkQueryRules_cons, h]
  · intro prep expl s now rules cfg i qr qs₁ qs₂ ls ls' m hvd h
    constructor
    · rw [checkQueries_cons, hvd, if_neg (by simp), h]
    · rw [checkQueries_cons, hvd, if_neg (by simp), h,
        checkQueries_cons, hvd, if_neg (by simp), h]
  · intro noDb rules now g rest io io' m errored h
    exact vetLoop_cons_fatal noDb rules now g rest io io' m errored h
  · intro noDb rules now groups io
    exact vetLoop_errored_result noDb rules now groups io

/-- C2 witness: the non-boolean evaluation step at a concrete input. -/
theorem c2_amended_witness :
    ruleEvalStep nonBoolProg alwaysTripRule
      { q := qSelectOne, vetDisable := false, rawStmt := .selectStmt } "bad"
      { io := { stderr := [], trace := [] }, errored := false }
      { query := vetQuery qSelectOne, config := cfg0, postgresql := none, mysql := none } =
      .fatal { io := { stderr := [], trace := [] }, errored := false }
        ("expression returned non-bool value: " ++ "no such overload") :=
  c2_amended_nonbool_aborts_group.1 nonBoolProg alwaysTripRule
    { q := qSelectOne, vetDisable := false, rawStmt := .selectStmt } "bad"
    { io := { stderr := [], trace := [] }, errored := false }
    { query := vetQuery qSelectOne, config := cfg0, postgresql := none, mysql := none }
    "no such overload" rfl

/-! ## Claim C3 -/

/-- C3 (amended): a group configuration referencing a rule name absent
from the compiled rule set fails with the fatal error `type-check error: a
rule with the name '<name>' does not exist`, raised when the name is first
looked up during the rules loop of the first query reaching it; rules
earlier in the group's rule list have already been evaluated for that
query (their diagnostics may already have been emitted), rules at or after
the unknown name are not evaluated, the fatal message is printed to the
error stream, the run continues with the remaining groups and (absent a
later panic) terminates with the ordinary failed-checks signal. -/
theorem c3_amended_unknown_rule_fatal :
    (∀ prep expl s now i rules qr nm ls em,
      lookupRule rules nm = none →
      checkRule prep expl s now i rules qr nm ls em =
        .fatal ls ("type-check error: a rule with the name \x27" ++ nm ++
          "\x27 does not exist")) ∧
    (∀ prep expl s now i rules qr (pre post : List String) nm ls em ls' em',
      lookupRule rules nm = none →
      checkQueryRules prep expl s now i rules qr pre ls em = .done ls' em' →
      checkQueryRules prep expl s now i rules qr (pre ++ nm :: post) ls em =
        .fatal ls' ("type-check error: a rule with the name \x27" ++ nm ++
          "\x27 does not exist")) ∧
    (∀ noDb rules now g rest io io' m errored,
      checkSQL noDb rules now g io = (io', .fatal m) →
      vetLoop noDb rules now (g :: rest) io errored =
        vetLoop noDb rules now rest { io' with stderr := io'.stderr ++ [m] } true ∧
      ((vetLoop noDb rules now (g :: rest) io errored).2 = .failedChecks ∨
        ∃ pm, (vetLoop noDb rules now (g :: rest) io errored).2 = .panicked pm)) := by
  have hfatal : ∀ prep expl s now i rules qr nm ls em,
      lookupRule rules nm = none →
      checkRule prep expl s now i rules qr nm ls em =
        .fatal ls ("type-check error: a rule with the name \x27" ++ nm ++
          "\x27 does not exist") := by
    intro prep expl s now i rules qr nm ls em h
    unfold checkRule
    rw [h]
  refine ⟨hfatal, ?_, ?_⟩
  · intro prep expl s now i rules qr pre post nm ls em ls' em' h hpre
    rw [checkQueryRules_append, hpre]
    dsimp only
    rw [checkQueryRules_cons, hfatal prep expl s now i rules qr nm ls' em' h]
  · intro noDb rules now g rest io io' m errored h
    constructor
    · exact vetLoop_cons_fatal noDb rules now g rest io io' m errored h
    · rw [vetLoop_cons_fatal noDb rules now g rest io io' m errored h]
      exact vetLoop_errored_result noDb rules now rest _

/-- C3 witness: the unknown-name lookup failure at a concrete input, after
one already processed rule. -/
theorem c3_amended_witness :
    checkQueryRules none none c3Group.s 0 0 c3Rules
      { q := qSelectOne, vetDisable := false, rawStmt := .selectStmt }
      (["r1"] ++ ["missing"])
      { io := { stderr := [], trace := [] }, errored := false }
      { query := vetQuery qSelectOne, config := cfg0, postgresql := none, mysql := none } =
      .fatal
        { io := { stderr := [diagLine3 "q.sql" "GetOne" "r1"], trace := [] }, errored := true }
        ("type-check error: a rule with the name \x27" ++ "missing" ++
          "\x27 does not exist") :=
  c3_amended_unknown_rule_fatal.2.1 none none c3Group.s 0 0 c3Rules
    { q := qSelectOne, vetDisable := false, rawStmt := .selectStmt }
    ["r1"] [] "missing"
    { io := { stderr := [], trace := [] }, errored := false }
    { query := vetQuery qSelectOne, config := cfg0, postgresql := none, mysql := none }
    { io := { stderr := [diagLine3 "q.sql" "GetOne" "r1"], trace := [] }, errored := true }
    { query := vetQuery qSelectOne, config := cfg0, postgresql := none, mysql := none }
    rfl rfl

/-- C1: the claim asserts that an engine `Prepare` error is reported as a
non-fatal violation and in particular never panics on the MySQL/SQLite
adapter.  On the code, `dbPreparer.Prepare` calls `s.Close()` before
checking the error, so a failing `PrepareContext` (which returns a nil
statement handle) makes the whole group check die with a nil-pointer
panic: this theorem evaluates the embedded code at such an input. -/
theorem c1_mysql_prepare_error_panics :
    Preparer.prepare (.dbPreparer c1World.dbPrepCtx) (prepStmtName 0 0) "SELECT malformed(" =
      .panicked nilDerefMsg ∧
    checkSQL false initialRules 0 c1Group { stderr := [], trace := [] } =
      ({ stderr := [], trace := [.prepareCall "sqlc_vet_0_0" "SELECT malformed("] },
        .panicked nilDerefMsg) :=
  ⟨rfl, rfl⟩

/-- C5: the claim expects exactly one violation for the `needs-limit` rule
on a `:many` query without `LIMIT`.  On the code, `vetQuery` computes
`strings.TrimPrefix(":", q.Cmd)` with the arguments swapped, so the `cmd`
field exposed to rules is `":"` for every ordinary command kind, the
comparison `query.cmd == ":many"` is false, and no violation is recorded:
this theorem evaluates the embedded code at the claimed input. -/
theorem c5_cmd_projection_no_violation :
    vetQuery { text := "SELECT id FROM users", name := "ListUsers", cmd := ":many",
               params := [], filename := "q.sql" } =
      { sql := "SELECT id FROM users", name := "ListUsers", cmd := ":", params := [] } ∧
    checkSQL false c5Rules 0 c5Group { stderr := [], trace := [] } =
      ({ stderr := [], trace := [] }, .ok) :=
  ⟨rfl, rfl⟩

/-- C2 counterexample: with a non-boolean rule result in the first group
and an ordinary violation in the second, the run does not abort at the
non-boolean result — the second group is still evaluated (its diagnostic
line appears) — and the final signal is the ordinary `ErrFailedChecks`,
not a distinct fatal signal. -/
theorem c2_counterexample_run_continues_after_nonbool :
    vetLoop false c2Rules 0 [c2GroupA, c2GroupB] { stderr := [], trace := [] } false =
      ({ stderr := ["expression returned non-bool value: no such overload",
                    diagLine3 "f2.sql" "Q2" "viol"],
         trace := [] },
       .failedChecks) ∧
    diagLine3 "f2.sql" "Q2" "viol" ∈
      (vetLoop false c2Rules 0 [c2GroupA, c2GroupB] { stderr := [], trace := [] } false).1.stderr :=
  ⟨rfl, by decide⟩

/-- C3 counterexample: a group configuration referencing the unknown rule
name `missing` after the tripping rule `r1` emits the `r1` violation
diagnostic for the first query before aborting, so the abort yields a
fatal error but neither zero diagnostics nor abort-before-any-query. -/
theorem c3_counterexample_diagnostics_before_unknown_rule :
    checkSQL false c3Rules 0 c3Group { stderr := [], trace := [] } =
      ({ stderr := [diagLine3 "f4.sql" "Q4" "r1"], trace := [] },
       .fatal "type-check error: a rule with the name \x27missing\x27 does not exist") ∧
    (checkSQL false c3Rules 0 c3Group { stderr := [], trace := [] }).1.stderr ≠ [] :=
  ⟨rfl, by decide⟩

/-- C4 counterexample: a rule whose expression references `mysql.explain`
but not `postgresql.explain` compiles with `needs_explain = true`,
refuting the direction "does not reference `postgresql.explain` implies
`needs_explain = false`" of the claim. -/
theorem c4_counterexample_mysql_explain_flag :
    compileRules c4Compile c4Program [c4ConfRule] =
      .ok (initialRules ++ [(c4ConfRule.name, c4PerfRule)]) ∧
    c4PerfRule.needsExplain = true ∧
    goContains c4ConfRule.rule "postgresql.explain" = false :=
  ⟨rfl, rfl, rfl⟩

/-- C6 counterexample: with database connections administratively disabled
and a database configured for the group, `checkSQL` fails fatally before
any query is evaluated — no per-pair "database connection required"
diagnostic is reported and the group's processing does not continue. -/
theorem c6_counterexample_disabled_connections_fatal :
    checkSQL true initialRules 0 c6Group { stderr := [], trace := [] } =
      ({ stderr := [], trace := [] },
       .fatal "database: connections disabled via command line flag") :=
  rfl

/-- C7 counterexample: with two rules requiring explain and an explainer
whose call fails, the Explain capability is invoked twice for the same
query within a single evaluation pass — the failed result is not
memoized — refuting "invoked at most once". -/
theorem c7_counterexample_explain_called_twice :
    checkSQL false c7Rules 0 c7Group { stderr := [], trace := [] } =
      ({ stderr := [diagLine "f3.sql" "Q3" "r1" "error explaining query: explain broke",
                    diagLine "f3.sql" "Q3" "r2" "error explaining query: explain broke"],
         trace := [.explainCall "SELECT 3" false, .explainCall "SELECT 3" false] },
       .failedChecks) ∧
    explainCount (checkSQL false c7Rules 0 c7Group { stderr := [], trace := [] }).1.trace = 2 :=
  ⟨rfl, rfl⟩

/-- C9 counterexample: when the engine `Prepare` call fails, the emitted
diagnostic's third field is the generated prepared-statement name
(`sqlc_vet_<ts>_<i>`, produced by the shadowing `name :=` on vet.go line
401), not the configured rule's name, refuting "the third field is always
the configured rule's name". -/
theorem c9_counterexample_prepare_error_line :
    checkSQL false initialRules 7 c9Group { stderr := [], trace := [] } =
      ({ stderr := [diagLine "q.sql" "GetX" "sqlc_vet_7_0" "error preparing query: boom"],
         trace := [.prepareCall "sqlc_vet_7_0" "SELECT 1"] },
       .failedChecks) ∧
    claimLineShape c9Group.s.rules "q.sql" "GetX"
      (diagLine "q.sql" "GetX" "sqlc_vet_7_0" "error preparing query: boom") = false :=
  ⟨rfl, by decide⟩

/-! ## Claim C4 -/

/-- C4 (amended): a successfully compiled rule has `needs_explain = true`
exactly when its expression source text contains `postgresql.explain` or
`mysql.explain`; the flag is a field computed during compilation and the
evaluation loop never modifies the rule map, so it never changes
afterwards. -/
theorem c4_amended_needs_explain_flag :
    ∀ (ec : String → Except String CelAst) (ep : CelAst → Except String CelProgram)
      (crs : List ConfRule) (m : List (String × Rule)),
      compileRules ec ep crs = .ok m →
      ∀ nm r, (nm, r) ∈ m →
        (nm = ruleDbPrepare ∧ r = dbPrepareRule) ∨
        ∃ c ∈ crs, nm = c.name ∧
          r.needsExplain =
            (goContains c.rule "postgresql.explain" || goContains c.rule "mysql.explain") := by
  intro ec ep crs m h nm r hmem
  rcases compileRulesAux_mem_flag ec ep crs initialRules m h (nm, r) hmem with hacc | hconf
  · left
    have : (nm, r) = (ruleDbPrepare, dbPrepareRule) := List.mem_singleton.mp hacc
    exact ⟨congrArg Prod.fst this, congrArg Prod.snd this⟩
  · exact Or.inr hconf

/-- C4 witness: the amended flag equation at the concrete `mysql.explain`
rule. -/
theorem c4_amended_needs_explain_flag_witness :
    (c4ConfRule.name = ruleDbPrepare ∧ c4PerfRule = dbPrepareRule) ∨
    ∃ c ∈ [c4ConfRule], c4ConfRule.name = c.name ∧
      c4PerfRule.needsExplain =
        (goContains c.rule "postgresql.explain" || goContains c.rule "mysql.explain") :=
  c4_amended_needs_explain_flag c4Compile c4Program [c4ConfRule]
    (initialRules ++ [(c4ConfRule.name, c4PerfRule)]) rfl c4ConfRule.name c4PerfRule
    (List.mem_append.mpr (Or.inr (List.mem_singleton.mpr rfl)))

/-! ## Claim C6 -/

/-- C6 (amended): when a rule requires preparation but the group has no
preparer (no database configured), or requires explain output but the
group has no explainer (no database configured, or the engine is SQLite),
the query/rule pair fails with a reported `database connection required`
diagnostic and the loop continues with the next rule; but when database
connections are administratively disabled while the group does configure a
database, the whole group fails fatally with `database: connections
disabled via command line flag` before any query is evaluated. -/
theorem c6_amended_database_required :
    (∀ expl s now i rules qr nm rest ls em (rule : Rule),
      lookupRule rules nm = some rule →
      rule.needsPrepare = true →
      checkQueryRules none expl s now i rules qr (nm :: rest) ls em =
        checkQueryRules none expl s now i rules qr rest
          (ls.report (diagLine qr.q.filename qr.q.name nm
            "error preparing query: database connection required")) em) ∧
    (∀ prep s now i rules qr nm rest ls em (rule : Rule) (prog : CelProgram),
      lookupRule rules nm = some rule →
      rule.needsPrepare = false →
      rule.program = some prog →
      rule.needsExplain = true →
      em.postgresql = none →
      em.mysql = none →
      checkQueryRules prep none s now i rules qr (nm :: rest) ls em =
        checkQueryRules prep none s now i rules qr rest
          (ls.report (diagLine qr.q.filename qr.q.name nm
            "error explaining query: database connection required")) em) ∧
    (∀ rules now (g : GroupInput) io u,
      g.s.database = some u →
      g.parseFailed = false →
      checkSQL true rules now g io =
        (io, .fatal "database: connections disabled via command line flag")) := by
  refine ⟨?_, ?_, ?_⟩
  · intro expl s now i rules qr nm rest ls em rule hlk hnp
    rw [checkQueryRules_cons]
    simp only [checkRule, hlk, rulePrepareStep, hnp, if_true]
  · intro prep s now i rules qr nm rest ls em rule prog hlk hnp hprog hne hpg hmy
    rw [checkQueryRules_cons]
    simp only [checkRule, hlk, rulePrepareStep, hnp, Bool.false_eq_true, if_false,
      ruleProgramStep, hprog, hne, hpg, hmy, Option.isSome_none, Bool.or_false,
      Bool.not_false, Bool.and_self, if_true]
  · intro rules now g io u hdb hpf
    simp only [checkSQL, hpf, Bool.false_eq_true, if_false, setupConn, hdb, if_true]

/-- C6 witness: both reported branches and the fatal disabled branch at
concrete inputs. -/
theorem c6_amended_database_required_witness :
    (checkQueryRules none none c6Group.s 0 0 initialRules
        { q := qSelectOne, vetDisable := false, rawStmt := .selectStmt }
        [ruleDbPrepare]
        { io := { stderr := [], trace := [] }, errored := false }
        { query := vetQuery qSelectOne, config := cfg0, postgresql := none, mysql := none } =
      checkQueryRules none none c6Group.s 0 0 initialRules
        { q := qSelectOne, vetDisable := false, rawStmt := .selectStmt }
        []
        (LoopState.report { io := { stderr := [], trace := [] }, errored := false }
          (diagLine "q.sql" "GetOne" ruleDbPrepare
            "error preparing query: database connection required"))
        { query := vetQuery qSelectOne, config := cfg0, postgresql := none, mysql := none }) ∧
    checkSQL true initialRules 0 c6Group { stderr := [], trace := [] } =
      ({ stderr := [], trace := [] },
        .fatal "database: connections disabled via command line flag") := by
  constructor
  · exact c6_amended_database_required.1 none c6Group.s 0 0 initialRules
      { q := qSelectOne, vetDisable := false, rawStmt := .selectStmt }
      ruleDbPrepare []
      { io := { stderr := [], trace := [] }, errored := false }
      { query := vetQuery qSelectOne, config := cfg0, postgresql := none, mysql := none }
      dbPrepareRule rfl rfl
  · exact c6_amended_database_required.2.2 initialRules 0 c6Group
      { stderr := [], trace := [] } "dsn" rfl rfl

/-! ## Claim C7 -/

/-- Counting filtered events distributes over trace concatenation. -/
theorem explainCount_append (tr₁ tr₂ : List Event) :
    explainCount (tr₁ ++ tr₂) = explainCount tr₁ + explainCount tr₂ := by
  simp [explainCount, List.filter_append]

/-- Counting successful explains distributes over trace concatenation. -/
theorem succExplainCount_append (tr₁ tr₂ : List Event) :
    succExplainCount (tr₁ ++ tr₂) = succExplainCount tr₁ + succExplainCount tr₂ := by
  simp [succExplainCount, List.filter_append]

/-- A prepare round trip changes neither explain count. -/
theorem counts_prepareCall (tr : List Event) (nm q : String) :
    explainCount (tr ++ [.prepareCall nm q]) = explainCount tr ∧
    succExplainCount (tr ++ [.prepareCall nm q]) = succExplainCount tr := by
  constructor
  · rw [explainCount_append]; rfl
  · rw [succExplainCount_append]; rfl

/-- A failed explain round trip does not change the successful count. -/
theorem succ_explainCall_false (tr : List Event) (q : String) :
    succExplainCount (tr ++ [.explainCall q false]) = succExplainCount tr := by
  rw [succExplainCount_append]; rfl

/-- A successful explain round trip adds one to the successful count. -/
theorem succ_explainCall_true (tr : List Event) (q : String) :
    succExplainCount (tr ++ [.explainCall q true]) = succExplainCount tr + 1 := by
  rw [succExplainCount_append]; rfl

/-- `ruleEvalStep` makes no database round trip: a `next` outcome keeps
the trace and the environment, a `fatal` outcome returns the input state,
and it never panics. -/
theorem ruleEvalStep_inv (prog : CelProgram) (rule : Rule) (qr : QueryRec) (nm : String)
    (ls : LoopState) (em : EvalMap) :
    (∀ ls₂ em₂, ruleEvalStep prog rule qr nm ls em = .next ls₂ em₂ →
      ls₂.io.trace = ls.io.trace ∧ em₂ = em) ∧
    (∀ ls₂ m, ruleEvalStep prog rule qr nm ls em = .fatal ls₂ m → ls₂ = ls) ∧
    (∀ ls₂ m, ruleEvalStep prog rule qr nm ls em = .panicked ls₂ m → False) := by
  refine ⟨?_, ?_, ?_⟩
  · intro ls₂ em₂ h
    unfold ruleEvalStep at h
    split at h
    · exact RuleStep.noConfusion h
    · split at h
      · exact RuleStep.noConfusion h
      · split at h
        · split at h
          · cases h; exact ⟨rfl, rfl⟩
          · cases h; exact ⟨rfl, rfl⟩
        · cases h; exact ⟨rfl, rfl⟩
  · intro ls₂ m h
    unfold ruleEvalStep at h
    split at h
    · cases h; rfl
    · split at h
      · cases h; rfl
      · split at h
        · split at h
          · exact RuleStep.noConfusion h
          · exact RuleStep.noConfusion h
        · exact RuleStep.noConfusion h
  · intro ls₂ m h
    unfold ruleEvalStep at h
    split at h
    · exact RuleStep.noConfusion h
    · split at h
      · exact RuleStep.noConfusion h
      · split at h
        · split at h
          · exact RuleStep.noConfusion h
          · exact RuleStep.noConfusion h
        · exact RuleStep.noConfusion h

/-- `rulePrepareStep` extends the trace only by prepare round trips (never
an explain), in every outcome. -/
theorem rulePrepareStep_trace (prep : Option Preparer) (s : SQLConfig) (now i : Nat)
    (qr : QueryRec) (nm : String) (rule : Rule) (ls : LoopState) :
    ∃ ext, (rulePrepareStep prep s now i qr nm rule ls).state.io.trace = ls.io.trace ++ ext ∧
      ∀ e ∈ ext, isExplainEvent e = false := by
  unfold rulePrepareStep
  dsimp only
  split
  · split
    · exact ⟨[], by simp [PrepOutcome.state, LoopState.report], by simp⟩
    · split
      · exact ⟨[], by simp [PrepOutcome.state, LoopState.report], by simp⟩
      · split
        · exact ⟨[.prepareCall (prepStmtName now i) qr.q.text],
            by simp [PrepOutcome.state, LoopState.record], by simp [isExplainEvent]⟩
        · exact ⟨[.prepareCall (prepStmtName now i) qr.q.text],
            by simp [PrepOutcome.state, LoopState.report, LoopState.record],
            by simp [isExplainEvent]⟩
        · exact ⟨[.prepareCall (prepStmtName now i) qr.q.text],
            by simp [PrepOutcome.state, LoopState.record], by simp [isExplainEvent]⟩
  · exact ⟨[], by simp [PrepOutcome.state], by simp⟩

/-- The explain block of one rule makes at most `explBudget em` successful
explain round trips, and none at all when explain output is already
memoized in the environment (in which case the environment is returned
unchanged). -/
theorem ruleProgramStep_explain_bound (expl : Option ExplFn) (qr : QueryRec) (nm : String)
    (rule : Rule) (ls : LoopState) (em : EvalMap) :
    (∀ ls₂ em₂, ruleProgramStep expl qr nm rule ls em = .next ls₂ em₂ →
      succExplainCount ls₂.io.trace + explBudget em₂ ≤
        succExplainCount ls.io.trace + explBudget em ∧
      (memoized em = true → ls₂.io.trace = ls.io.trace ∧ em₂ = em)) ∧
    (∀ ls₂ m, ruleProgramStep expl qr nm rule ls em = .fatal ls₂ m →
      succExplainCount ls₂.io.trace ≤ succExplainCount ls.io.trace + explBudget em ∧
      (memoized em = true → ls₂.io.trace = ls.io.trace)) ∧
    (∀ ls₂ m, ruleProgramStep expl qr nm rule ls em = .panicked ls₂ m → False) := by
  refine ⟨?_, ?_, ?_⟩
  · intro ls₂ em₂ h
    unfold ruleProgramStep at h
    dsimp only at h
    split at h
    · cases h; exact ⟨Nat.le_refl _, fun _ => ⟨rfl, rfl⟩⟩
    · rename_i prog hprog
      split at h
      · rename_i hcond
        have hmem : memoized em = false := by
          have hc := hcond
          simp only [Bool.and_eq_true, Bool.not_eq_true'] at hc
          simpa [memoized] using hc.2
        have hbud : explBudget em = 1 := by simp [explBudget, hmem]
        split at h
        · cases h
          refine ⟨Nat.le_refl _, fun hm => ?_⟩
          rw [hm] at hmem; cases hmem
        · split at h
          · cases h
            refine ⟨?_, fun hm => by rw [hm] at hmem; cases hmem⟩
            have heq : succExplainCount (ls.io.trace ++ [.explainCall qr.q.text false]) =
                succExplainCount ls.io.trace := succ_explainCall_false ls.io.trace qr.q.text
            simp only [LoopState.report, LoopState.record]
            rw [heq]
          · rename_i out hout
            rcases (ruleEvalStep_inv prog rule qr nm
              (ls.record (.explainCall qr.q.text true))
              { em with postgresql := some out.postgresql, mysql := some out.mysql }).1
              ls₂ em₂ h with ⟨htr, hem⟩
            refine ⟨?_, fun hm => by rw [hm] at hmem; cases hmem⟩
            rw [htr, hem]
            have h1 : succExplainCount ((ls.record (.explainCall qr.q.text true)).io.trace) =
                succExplainCount ls.io.trace + 1 := by
              simp only [LoopState.record]
              exact succ_explainCall_true ls.io.trace qr.q.text
            have h2 :
                explBudget { em with postgresql := some out.postgresql, mysql := some out.mysql } =
                  0 := by
              simp [explBudget, memoized]
            rw [h1, h2, hbud]
      · rcases (ruleEvalStep_inv prog rule qr nm ls em).1 ls₂ em₂ h with ⟨htr, hem⟩
        rw [htr, hem]
        exact ⟨Nat.le_refl _, fun _ => ⟨rfl, rfl⟩⟩
  · intro ls₂ m h
    unfold ruleProgramStep at h
    dsimp only at h
    split at h
    · exact RuleStep.noConfusion h
    · rename_i prog hprog
      split at h
      · rename_i hcond
        have hmem : memoized em = false := by
          have hc := hcond
          simp only [Bool.and_eq_true, Bool.not_eq_true'] at hc
          simpa [memoized] using hc.2
        have hbud : explBudget em = 1 := by simp [explBudget, hmem]
        split at h
        · exact RuleStep.noConfusion h
        · split at h
          · exact RuleStep.noConfusion h
          · rename_i out hout
            have hls₂ := (ruleEvalStep_inv prog rule qr nm
              (ls.record (.explainCall qr.q.text true))
              { em with postgresql := some out.postgresql, mysql := some out.mysql }).2.1 ls₂ m h
            subst hls₂
            refine ⟨?_, fun hm => by rw [hm] at hmem; cases hmem⟩
            have h1 : succExplainCount ((ls.record (.explainCall qr.q.text true)).io.trace) =
                succExplainCount ls.io.trace + 1 := by
              simp only [LoopState.record]
              exact succ_explainCall_true ls.io.trace qr.q.text
            rw [h1, hbud]
      · have hls₂ := (ruleEvalStep_inv prog rule qr nm ls em).2.1 ls₂ m h
        subst hls₂
        exact ⟨Nat.le_add_right _ _, fun _ => rfl⟩
  · intro ls₂ m h
    unfold ruleProgramStep at h
    dsimp only at h
    split at h
    · exact RuleStep.noConfusion h
    · rename_i prog hprog
      split at h
      · split at h
        · exact RuleStep.noConfusion h
        · split at h
          · exact RuleStep.noConfusion h
          · rename_i out hout
            exact (ruleEvalStep_inv prog rule qr nm
              (ls.record (.explainCall qr.q.text true))
              { em with postgresql := some out.postgresql, mysql := some out.mysql }).2.2 ls₂ m h
      · exact (ruleEvalStep_inv prog rule qr nm ls em).2.2 ls₂ m h

/-- A trace extension without explain events changes neither count. -/
theorem counts_append_nonExplain (tr ext : List Event)
    (h : ∀ e ∈ ext, isExplainEvent e = false) :
    explainCount (tr ++ ext) = explainCount tr ∧
    succExplainCount (tr ++ ext) = succExplainCount tr := by
  have hex : explainCount ext = 0 := by
    simp only [explainCount, List.length_eq_zero]
    exact List.filter_eq_nil_iff.mpr (fun e he => by simp [h e he])
  have hsx : succExplainCount ext = 0 := by
    simp only [succExplainCount, List.length_eq_zero]
    refine List.filter_eq_nil_iff.mpr (fun e he => ?_)
    have he2 := h e he
    cases e with
    | prepareCall a b => simp [isSuccExplain]
    | explainCall q ok => simp [isExplainEvent] at he2
  refine ⟨?_, ?_⟩
  · simp [explainCount_append, hex]
  · simp [succExplainCount_append, hsx]

/-- One full rule step makes at most `explBudget em` successful explain
round trips, and none at all once explain output is memoized. -/
theorem checkRule_explain_bound (prep : Option Preparer) (expl : Option ExplFn)
    (s : SQLConfig) (now i : Nat) (rules : List (String × Rule)) (qr : QueryRec)
    (nm : String) (ls : LoopState) (em : EvalMap) :
    (∀ ls₂ em₂, checkRule prep expl s now i rules qr nm ls em = .next ls₂ em₂ →
      succExplainCount ls₂.io.trace + explBudget em₂ ≤
        succExplainCount ls.io.trace + explBudget em ∧
      (memoized em = true →
        explainCount ls₂.io.trace = explainCount ls.io.trace ∧ em₂ = em)) ∧
    (∀ ls₂ m, (checkRule prep expl s now i rules qr nm ls em = .fatal ls₂ m ∨
        checkRule prep expl s now i rules qr nm ls em = .panicked ls₂ m) →
      succExplainCount ls₂.io.trace ≤ succExplainCount ls.io.trace + explBudget em ∧
      (memoized em = true →
        explainCount ls₂.io.trace = explainCount ls.io.trace)) := by
  constructor
  · intro ls₂ em₂ h
    unfold checkRule at h
    split at h
    · exact RuleStep.noConfusion h
    · rename_i rule hlk
      split at h
      · exact RuleStep.noConfusion h
      · rename_i ls' hB
        cases h
        rcases rulePrepareStep_trace prep s now i qr nm rule ls with ⟨ext, htr, hne⟩
        rw [hB] at htr
        simp only [PrepOutcome.state] at htr
        rcases counts_append_nonExplain ls.io.trace ext hne with ⟨hc1, hc2⟩
        rw [htr, hc2]
        exact ⟨Nat.le_refl _, fun _ => ⟨hc1, rfl⟩⟩
      · rename_i ls' hB
        rcases rulePrepareStep_trace prep s now i qr nm rule ls with ⟨ext, htr, hne⟩
        rw [hB] at htr
        simp only [PrepOutcome.state] at htr
        rcases counts_append_nonExplain ls.io.trace ext hne with ⟨hc1, hc2⟩
        rcases (ruleProgramStep_explain_bound expl qr nm rule ls' em).1 ls₂ em₂ h with ⟨hb, hm⟩
        constructor
        · calc succExplainCount ls₂.io.trace + explBudget em₂ ≤
              succExplainCount ls'.io.trace + explBudget em := hb
            _ = succExplainCount ls.io.trace + explBudget em := by rw [htr, hc2]
        · intro hmem
          rcases hm hmem with ⟨hteq, hemeq⟩
          refine ⟨?_, hemeq⟩
          rw [hteq, htr, hc1]
  · intro ls₂ m h
    unfold checkRule at h
    rcases h with h | h
    · split at h
      · cases h
        exact ⟨Nat.le_add_right _ _, fun _ => rfl⟩
      · rename_i rule hlk
        split at h
        · exact RuleStep.noConfusion h
        · exact RuleStep.noConfusion h
        · rename_i ls' hB
          rcases rulePrepareStep_trace prep s now i qr nm rule ls with ⟨ext, htr, hne⟩
          rw [hB] at htr
          simp only [PrepOutcome.state] at htr
          rcases counts_append_nonExplain ls.io.trace ext hne with ⟨hc1, hc2⟩
          rcases (ruleProgramStep_explain_bound expl qr nm rule ls' em).2.1 ls₂ m h with ⟨hb, hm⟩
          constructor
          · calc succExplainCount ls₂.io.trace ≤
                succExplainCount ls'.io.trace + explBudget em := hb
              _ = succExplainCount ls.io.trace + explBudget em := by rw [htr, hc2]
          · intro hmem
            rw [hm hmem, htr, hc1]
    · split at h
      · exact RuleStep.noConfusion h
      · rename_i rule hlk
        split at h
        · rename_i ls' m' hB
          cases h
          rcases rulePrepareStep_trace prep s now i qr nm rule ls with ⟨ext, htr, hne⟩
          rw [hB] at htr
          simp only [PrepOutcome.state] at htr
          rcases counts_append_nonExplain ls.io.trace ext hne with ⟨hc1, hc2⟩
          exact ⟨by rw [htr, hc2]; exact Nat.le_add_right _ _,
            fun _ => by rw [htr, hc1]⟩
        · exact RuleStep.noConfusion h
        · rename_i ls' hB
          exact absurd h (by
            intro hcontra
            exact (ruleProgramStep_explain_bound expl qr nm rule ls' em).2.2 ls₂ m hcontra)

/-- The rules loop for one query makes at most `explBudget em` successful
explain round trips in total, and none once explain output is memoized. -/
theorem checkQueryRules_explain_invariant (prep : Option Preparer) (expl : Option ExplFn)
    (s : SQLConfig) (now i : Nat) (rules : List (String × Rule)) (qr : QueryRec) :
    ∀ (names : List String) (ls : LoopState) (em : EvalMap),
      succExplainCount
          (checkQueryRules prep expl s now i rules qr names ls em).state.io.trace ≤
        succExplainCount ls.io.trace + explBudget em ∧
      (memoized em = true →
        explainCount
            (checkQueryRules prep expl s now i rules qr names ls em).state.io.trace =
          explainCount ls.io.trace) := by
  intro names
  induction names with
  | nil => intro ls em; exact ⟨Nat.le_add_right _ _, fun _ => rfl⟩
  | cons nm rest ih =>
    intro ls em
    rw [checkQueryRules_cons]
    cases hstep : checkRule prep expl s now i rules qr nm ls em with
    | next ls' em' =>
      dsimp only
      rcases (checkRule_explain_bound prep expl s now i rules qr nm ls em).1 ls' em' hstep
        with ⟨hb, hm⟩
      rcases ih ls' em' with ⟨ih1, ih2⟩
      constructor
      · exact le_trans ih1 hb
      · intro hmem
        rcases hm hmem with ⟨hec, hemeq⟩
        have hmem' : memoized em' = true := by rw [hemeq]; exact hmem
        rw [ih2 hmem', hec]
    | fatal ls' m =>
      dsimp only
      exact (checkRule_explain_bound prep expl s now i rules qr nm ls em).2 ls' m (Or.inl hstep)
    | panicked ls' m =>
      dsimp only
      exact (checkRule_explain_bound prep expl s now i rules qr nm ls em).2 ls' m (Or.inr hstep)

/-- C7 (amended): within a single query's evaluation pass — which starts
from a fresh environment holding only `query` and `config` — at most one
SUCCESSFUL Explain invocation occurs, and once explain output is memoized
in the environment no further Explain round trips happen at all (so later
rules reuse the memoized result); a FAILED invocation is not memoized and
may recur for subsequent rules requiring explain. -/
theorem c7_amended_one_successful_explain :
    (∀ (prep : Option Preparer) (expl : Option ExplFn) (s : SQLConfig) (now i : Nat)
        (rules : List (String × Rule)) (qr : QueryRec) (names : List String)
        (ls : LoopState) (q : VetQuery) (cfg : VetConfig),
      succExplainCount (checkQueryRules prep expl s now i rules qr names ls
          { query := q, config := cfg, postgresql := none, mysql := none }).state.io.trace ≤
        succExplainCount ls.io.trace + 1) ∧
    (∀ (prep : Option Preparer) (expl : Option ExplFn) (s : SQLConfig) (now i : Nat)
        (rules : List (String × Rule)) (qr : QueryRec) (names : List String)
        (ls : LoopState) (em : EvalMap),
      memoized em = true →
      explainCount (checkQueryRules prep expl s now i rules qr names ls em).state.io.trace =
        explainCount ls.io.trace) := by
  constructor
  · intro prep expl s now i rules qr names ls q cfg
    exact (checkQueryRules_explain_invariant prep expl s now i rules qr names ls
      { query := q, config := cfg, postgresql := none, mysql := none }).1
  · intro prep expl s now i rules qr names ls em hm
    exact (checkQueryRules_explain_invariant prep expl s now i rules qr names ls em).2 hm

/-- C7 witness: the bound and the memoized-reuse clause at concrete
inputs. -/
theorem c7_amended_witness :
    succExplainCount (checkQueryRules none (some (failExpl "explain broke")) c7Group.s 0 0
        c7Rules { q := qSelectOne, vetDisable := false, rawStmt := .selectStmt }
        ["r1", "r2"] { io := { stderr := [], trace := [] }, errored := false }
        { query := vetQuery qSelectOne, config := cfg0, postgresql := none,
          mysql := none }).state.io.trace ≤
      succExplainCount ({ stderr := [], trace := [] } : IOState).trace + 1 ∧
    explainCount (checkQueryRules none (some (failExpl "explain broke")) c7Group.s 0 0
        c7Rules { q := qSelectOne, vetDisable := false, rawStmt := .selectStmt }
        ["r1", "r2"] { io := { stderr := [], trace := [] }, errored := false }
        { query := vetQuery qSelectOne, config := cfg0, postgresql := some none,
          mysql := none }).state.io.trace =
      explainCount ({ stderr := [], trace := [] } : IOState).trace :=
  ⟨c7_amended_one_successful_explain.1 none (some (failExpl "explain broke")) c7Group.s 0 0
      c7Rules { q := qSelectOne, vetDisable := false, rawStmt := .selectStmt }
      ["r1", "r2"] { io := { stderr := [], trace := [] }, errored := false }
      (vetQuery qSelectOne) cfg0,
    c7_amended_one_successful_explain.2 none (some (failExpl "explain broke")) c7Group.s 0 0
      c7Rules { q := qSelectOne, vetDisable := false, rawStmt := .selectStmt }
      ["r1", "r2"] { io := { stderr := [], trace := [] }, errored := false }
      { query := vetQuery qSelectOne, config := cfg0, postgresql := some none, mysql := none }
      rfl⟩

/-- C8: under Postgres only DELETE/INSERT/SELECT/UPDATE statements are
preparable and under MySQL and SQLite everything is; the compiled rule map
always contains the built-in `sqlc/db-prepare` rule; and for that rule
against a non-preparable statement the pair produces exactly one reported
diagnostic `error preparing query: query type is unpreparable` — the state
changes only by that stderr line and the errored flag, so no Prepare or
Explain round trip happens for the pair — and the loop continues with the
next rule. -/
theorem c8_unpreparable_reported_once :
    (∀ k, prepareable engineMySQL k = true) ∧
    (∀ k, prepareable engineSQLite k = true) ∧
    (prepareable enginePostgreSQL .deleteStmt = true ∧
      prepareable enginePostgreSQL .insertStmt = true ∧
      prepareable enginePostgreSQL .selectStmt = true ∧
      prepareable enginePostgreSQL .updateStmt = true ∧
      ∀ d, prepareable enginePostgreSQL (.otherStmt d) = false) ∧
    (∀ (ec : String → Except String CelAst) (ep : CelAst → Except String CelProgram)
        (crs : List ConfRule) (m : List (String × Rule)),
      compileRules ec ep crs = .ok m →
      lookupRule m ruleDbPrepare = some dbPrepareRule) ∧
    (∀ (p : Preparer) expl s now i rules qr rest ls em,
      lookupRule rules ruleDbPrepare = some dbPrepareRule →
      prepareable s.engine qr.rawStmt = false →
      checkQueryRules (some p) expl s now i rules qr (ruleDbPrepare :: rest) ls em =
        checkQueryRules (some p) expl s now i rules qr rest
          (ls.report (diagLine qr.q.filename qr.q.name ruleDbPrepare
            "error preparing query: query type is unpreparable")) em) := by
  refine ⟨?_, ?_, ⟨rfl, rfl, rfl, rfl, fun d => rfl⟩, ?_, ?_⟩
  · intro k; rfl
  · intro k; rfl
  · intro ec ep crs m h
    rcases compileRulesAux_acc_extends ec ep crs initialRules m h with ⟨ext, hext⟩
    rw [hext]
    rfl
  · intro p expl s now i rules qr rest ls em hlk hprep
    rw [checkQueryRules_cons]
    unfold checkRule
    rw [hlk]
    unfold rulePrepareStep
    simp only [dbPrepareRule, hprep, Bool.not_false, if_true]

/-- C8 witness: the reported unpreparable diagnostic for a DDL statement
under the Postgres engine, and the built-in rule's presence in a compiled
map. -/
theorem c8_unpreparable_reported_once_witness :
    (checkQueryRules (some (.pgxConn (fun _ _ => none))) none
        { engine := enginePostgreSQL, database := some "postgres://x", rules := [ruleDbPrepare] }
        0 0 initialRules
        { q := qSelectOne, vetDisable := false, rawStmt := .otherStmt "CreateTableStmt" }
        [ruleDbPrepare]
        { io := { stderr := [], trace := [] }, errored := false }
        { query := vetQuery qSelectOne, config := cfg0, postgresql := none, mysql := none } =
      checkQueryRules (some (.pgxConn (fun _ _ => none))) none
        { engine := enginePostgreSQL, database := some "postgres://x", rules := [ruleDbPrepare] }
        0 0 initialRules
        { q := qSelectOne, vetDisable := false, rawStmt := .otherStmt "CreateTableStmt" }
        []
        (LoopState.report { io := { stderr := [], trace := [] }, errored := false }
          (diagLine "q.sql" "GetOne" ruleDbPrepare
            "error preparing query: query type is unpreparable"))
        { query := vetQuery qSelectOne, config := cfg0, postgresql := none, mysql := none }) ∧
    lookupRule initialRules ruleDbPrepare = some dbPrepareRule := by
  constructor
  · exact c8_unpreparable_reported_once.2.2.2.2 (.pgxConn (fun _ _ => none)) none
      { engine := enginePostgreSQL, database := some "postgres://x", rules := [ruleDbPrepare] }
      0 0 initialRules
      { q := qSelectOne, vetDisable := false, rawStmt := .otherStmt "CreateTableStmt" }
      [] { io := { stderr := [], trace := [] }, errored := false }
      { query := vetQuery qSelectOne, config := cfg0, postgresql := none, mysql := none }
      rfl rfl
  · exact c8_unpreparable_reported_once.2.2.2.1 c4Compile c4Program []
      initialRules rfl

/-! ## Claim C9 -/

/-- `stderrExt` is reflexive. -/
theorem stderrExt_refl (s : SQLConfig) (now : Nat) (qs : List QueryRec) (io : IOState) :
    stderrExt s now qs io io :=
  ⟨[], by simp, by simp⟩

/-- `stderrExt` composes. -/
theorem stderrExt_trans {s : SQLConfig} {now : Nat} {qs : List QueryRec}
    {io₁ io₂ io₃ : IOState} (h₁ : stderrExt s now qs io₁ io₂)
    (h₂ : stderrExt s now qs io₂ io₃) : stderrExt s now qs io₁ io₃ := by
  rcases h₁ with ⟨d₁, e₁, g₁⟩
  rcases h₂ with ⟨d₂, e₂, g₂⟩
  refine ⟨d₁ ++ d₂, ?_, ?_⟩
  · rw [e₂, e₁, List.append_assoc]
  · intro l hl
    rcases List.mem_append.mp hl with h | h
    · exact g₁ l h
    · exact g₂ l h

/-- Reporting one good line is a good stderr extension. -/
theorem stderrExt_report {s : SQLConfig} {now : Nat} {qs : List QueryRec}
    (ls : LoopState) (l : String) (h : goodLine s now qs l) :
    stderrExt s now qs ls.io (ls.report l).io :=
  ⟨[l], rfl, by intro x hx; rw [List.mem_singleton.mp hx]; exact h⟩

/-- Recording a database round trip leaves stderr unchanged. -/
theorem stderrExt_record {s : SQLConfig} {now : Nat} {qs : List QueryRec}
    (ls : LoopState) (e : Event) :
    stderrExt s now qs ls.io (ls.record e).io :=
  ⟨[], by simp [LoopState.record], by simp⟩

/-- A four-field line whose third field is a configured rule name is
good. -/
theorem goodLine_ruleMsg {s : SQLConfig} (now : Nat) {qs : List QueryRec} {qr : QueryRec}
    {nm : String} (hqr : qr ∈ qs) (hnm : nm ∈ s.rules) (msg : String) :
    goodLine s now qs (diagLine qr.q.filename qr.q.name nm msg) :=
  ⟨qr, hqr, nm, Or.inl hnm, Or.inr ⟨msg, rfl⟩⟩

/-- A three-field line whose third field is a configured rule name is
good. -/
theorem goodLine_rule3 {s : SQLConfig} (now : Nat) {qs : List QueryRec} {qr : QueryRec}
    {nm : String} (hqr : qr ∈ qs) (hnm : nm ∈ s.rules) :
    goodLine s now qs (diagLine3 qr.q.filename qr.q.name nm) :=
  ⟨qr, hqr, nm, Or.inl hnm, Or.inl rfl⟩

/-- A four-field line whose third field is a generated prepared-statement
name is good. -/
theorem goodLine_prepName {s : SQLConfig} {now : Nat} {qs : List QueryRec} {qr : QueryRec}
    (hqr : qr ∈ qs) (i : Nat) (msg : String) :
    goodLine s now qs (diagLine qr.q.filename qr.q.name (prepStmtName now i) msg) :=
  ⟨qr, hqr, prepStmtName now i, Or.inr ⟨i, rfl⟩, Or.inr ⟨msg, rfl⟩⟩

/-- Expression evaluation and reporting only append good lines. -/
theorem ruleEvalStep_stderrExt {s : SQLConfig} {now : Nat} {qs : List QueryRec}
    (prog : CelProgram) (rule : Rule) (qr : QueryRec) (nm : String)
    (ls : LoopState) (em : EvalMap) (hqr : qr ∈ qs) (hnm : nm ∈ s.rules) :
    stderrExt s now qs ls.io (ruleEvalStep prog rule qr nm ls em).state.io := by
  unfold ruleEvalStep
  split
  · exact stderrExt_refl s now qs ls.io
  · split
    · exact stderrExt_refl s now qs ls.io
    · split
      · split
        · exact stderrExt_report ls _ (goodLine_rule3 now hqr hnm)
        · exact stderrExt_report ls _ (goodLine_ruleMsg now hqr hnm rule.message)
      · exact stderrExt_refl s now qs ls.io

/-- The prepare block only appends good lines, in every outcome. -/
theorem rulePrepareStep_stderrExt {qs : List QueryRec} (prep : Option Preparer)
    (s : SQLConfig) (now i : Nat) (qr : QueryRec) (nm : String) (rule : Rule)
    (ls : LoopState) (hqr : qr ∈ qs) (hnm : nm ∈ s.rules) :
    stderrExt s now qs ls.io (rulePrepareStep prep s now i qr nm rule ls).state.io := by
  unfold rulePrepareStep
  dsimp only
  split
  · split
    · exact stderrExt_report ls _ (goodLine_ruleMsg now hqr hnm _)
    · split
      · exact stderrExt_report ls _ (goodLine_ruleMsg now hqr hnm _)
      · split
        · exact stderrExt_record ls _
        · exact stderrExt_trans (stderrExt_record ls _)
            (stderrExt_report _ _ (goodLine_prepName hqr i _))
        · exact stderrExt_record ls _
  · exact stderrExt_refl s now qs ls.io

/-- The explain block and evaluation only append good lines. -/
theorem ruleProgramStep_stderrExt {qs : List QueryRec} (expl : Option ExplFn)
    (s : SQLConfig) (now : Nat) (qr : QueryRec) (nm : String) (rule : Rule)
    (ls : LoopState) (em : EvalMap) (hqr : qr ∈ qs) (hnm : nm ∈ s.rules) :
    stderrExt s now qs ls.io (ruleProgramStep expl qr nm rule ls em).state.io := by
  unfold ruleProgramStep
  dsimp only
  split
  · exact stderrExt_refl s now qs ls.io
  · split
    · split
      · exact stderrExt_report ls _ (goodLine_ruleMsg now hqr hnm _)
      · split
        · exact stderrExt_trans (stderrExt_record ls _)
            (stderrExt_report _ _ (goodLine_ruleMsg now hqr hnm _))
        · exact stderrExt_trans (stderrExt_record ls _)
            (ruleEvalStep_stderrExt _ _ _ _ _ _ hqr hnm)
    · exact ruleEvalStep_stderrExt _ _ _ _ _ _ hqr hnm

/-- One full rule step only appends good lines, in every outcome. -/
theorem checkRule_stderrExt {qs : List QueryRec} (prep : Option Preparer)
    (expl : Option ExplFn) (s : SQLConfig) (now i : Nat) (rules : List (String × Rule))
    (qr : QueryRec) (nm : String) (ls : LoopState) (em : EvalMap)
    (hqr : qr ∈ qs) (hnm : nm ∈ s.rules) :
    stderrExt s now qs ls.io (checkRule prep expl s now i rules qr nm ls em).state.io := by
  unfold checkRule
  split
  · exact stderrExt_refl s now qs ls.io
  · rename_i rule hlk
    split
    · rename_i ls' m hB
      have h := rulePrepareStep_stderrExt prep s now i qr nm rule ls hqr hnm
      rw [hB] at h
      exact h
    · rename_i ls' hB
      have h := rulePrepareStep_stderrExt prep s now i qr nm rule ls hqr hnm
      rw [hB] at h
      exact h
    · rename_i ls' hB
      have h := rulePrepareStep_stderrExt prep s now i qr nm rule ls hqr hnm
      rw [hB] at h
      exact stderrExt_trans h (ruleProgramStep_stderrExt expl s now qr nm rule ls' em hqr hnm)

/-- The rules loop for one query only appends good lines. -/
theorem checkQueryRules_stderrExt {qs : List QueryRec} (prep : Option Preparer)
    (expl : Option ExplFn) (s : SQLConfig) (now i : Nat) (rules : List (String × Rule))
    (qr : QueryRec) (hqr : qr ∈ qs) :
    ∀ (names : List String), (∀ nm ∈ names, nm ∈ s.rules) →
      ∀ (ls : LoopState) (em : EvalMap),
        stderrExt s now qs ls.io
          (checkQueryRules prep expl s now i rules qr names ls em).state.io := by
  intro names
  induction names with
  | nil => intro _ ls em; exact stderrExt_refl s now qs ls.io
  | cons nm rest ih =>
    intro hsub ls em
    rw [checkQueryRules_cons]
    cases hstep : checkRule prep expl s now i rules qr nm ls em with
    | next ls' em' =>
      dsimp only
      refine stderrExt_trans ?_ (ih (fun x hx => hsub x (List.mem_cons_of_mem nm hx)) ls' em')
      have h := checkRule_stderrExt prep expl s now i rules qr nm ls em hqr
        (hsub nm (List.mem_cons_self nm rest))
      rw [hstep] at h
      exact h
    | fatal ls' m =>
      dsimp only
      have h := checkRule_stderrExt prep expl s now i rules qr nm ls em hqr
        (hsub nm (List.mem_cons_self nm rest))
      rw [hstep] at h
      exact h
    | panicked ls' m =>
      dsimp only
      have h := checkRule_stderrExt prep expl s now i rules qr nm ls em hqr
        (hsub nm (List.mem_cons_self nm rest))
      rw [hstep] at h
      exact h

/-- The queries loop only appends good lines. -/
theorem checkQueries_stderrExt (prep : Option Preparer) (expl : Option ExplFn)
    (s : SQLConfig) (now : Nat) (rules : List (String × Rule)) (cfg : VetConfig)
    (qs : List QueryRec) :
    ∀ (queries : List QueryRec), (∀ q ∈ queries, q ∈ qs) →
      ∀ (i : Nat) (ls : LoopState),
        stderrExt s now qs ls.io
          (checkQueries prep expl s now rules cfg i queries ls).state.io := by
  intro queries
  induction queries with
  | nil => intro _ i ls; exact stderrExt_refl s now qs ls.io
  | cons qr rest ih =>
    intro hsub i ls
    rw [checkQueries_cons]
    split
    · exact ih (fun x hx => hsub x (List.mem_cons_of_mem qr hx)) (i + 1) ls
    · cases hq : checkQueryRules prep expl s now i rules qr s.rules ls
        { query := vetQuery qr.q, config := cfg, postgresql := none, mysql := none } with
      | done ls' em' =>
        dsimp only
        refine stderrExt_trans ?_ (ih (fun x hx => hsub x (List.mem_cons_of_mem qr hx)) (i + 1) ls')
        have h := checkQueryRules_stderrExt prep expl s now i rules qr
          (hsub qr (List.mem_cons_self qr rest)) s.rules (fun x hx => hx) ls
          { query := vetQuery qr.q, config := cfg, postgresql := none, mysql := none }
        rw [hq] at h
        exact h
      | fatal ls' m =>
        dsimp only
        have h := checkQueryRules_stderrExt prep expl s now i rules qr
          (hsub qr (List.mem_cons_self qr rest)) s.rules (fun x hx => hx) ls
          { query := vetQuery qr.q, config := cfg, postgresql := none, mysql := none }
        rw [hq] at h
        exact h
      | panicked ls' m =>
        dsimp only
        have h := checkQueryRules_stderrExt prep expl s now i rules qr
          (hsub qr (List.mem_cons_self qr rest)) s.rules (fun x hx => hx) ls
          { query := vetQuery qr.q, config := cfg, postgresql := none, mysql := none }
        rw [hq] at h
        exact h

/-- C9 (amended): every diagnostic line that a group evaluation appends to
the error stream has the form `<filename>: <query-name>: <third>` or
`<filename>: <query-name>: <third>: <message>` for one of the group's
queries, where `<third>` is a configured rule name OR — on engine
prepare-error lines — the generated prepared-statement name
`sqlc_vet_<timestamp>_<index>` (because the `Fprintf` on vet.go line 403
uses the shadowing statement-name variable of line 401 in place of the
rule name). -/
theorem c9_amended_line_shape :
    ∀ (noDb : Bool) (rules : List (String × Rule)) (now : Nat) (g : GroupInput)
      (io : IOState),
      stderrExt g.s now g.queries io (checkSQL noDb rules now g io).1 := by
  intro noDb rules now g io
  unfold checkSQL
  split
  · exact stderrExt_refl g.s now g.queries io
  · split
    · exact stderrExt_refl g.s now g.queries io
    · rename_i prep expl hsetup
      cases hq : checkQueries prep expl g.s now rules g.cfg 0 g.queries
          { io := io, errored := false } with
      | done ls' =>
        have h := checkQueries_stderrExt prep expl g.s now rules g.cfg g.queries g.queries
          (fun x hx => hx) 0 { io := io, errored := false }
        rw [hq] at h
        exact h
      | fatal ls' m =>
        have h := checkQueries_stderrExt prep expl g.s now rules g.cfg g.queries g.queries
          (fun x hx => hx) 0 { io := io, errored := false }
        rw [hq] at h
        exact h
      | panicked ls' m =>
        have h := checkQueries_stderrExt prep expl g.s now rules g.cfg g.queries g.queries
          (fun x hx => hx) 0 { io := io, errored := false }
        rw [hq] at h
        exact h

/-- C9 witness: the line-shape property instantiated at the concrete run
whose prepare-error diagnostic carries the generated statement name. -/
theorem c9_amended_line_shape_witness :
    stderrExt c9Group.s 7 c9Group.queries { stderr := [], trace := [] }
      (checkSQL false initialRules 7 c9Group { stderr := [], trace := [] }).1 :=
  c9_amended_line_shape false initialRules 7 c9Group { stderr := [], trace := [] }

/-- C10: the argument list passed to the database alongside either EXPLAIN
statement is a freshly allocated slice of length equal to the parameter
count whose entries are all nil; the actual parameter values and metadata
are never forwarded (the issued call depends only on the parameter
count). -/
theorem c10_explain_args_all_nil :
    ∀ (o : PgRowOracle) (o2 : MyRowOracle) (query : String) (args : List PluginParameter),
      ((pgxConnExplain o query args).1.args.length = args.length ∧
        ∀ a ∈ (pgxConnExplain o query args).1.args, a = GoAny.nil) ∧
      ((mysqlExplainerExplain o2 query args).1.args.length = args.length ∧
        ∀ a ∈ (mysqlExplainerExplain o2 query args).1.args, a = GoAny.nil) ∧
      (∀ args2 : List PluginParameter, args.length = args2.length →
        (pgxConnExplain o query args).1 = (pgxConnExplain o query args2).1 ∧
        (mysqlExplainerExplain o2 query args).1 = (mysqlExplainerExplain o2 query args2).1) := by
  intro o o2 query args
  refine ⟨⟨?_, ?_⟩, ⟨?_, ?_⟩, ?_⟩
  · simp [pgxConnExplain]
  · intro a ha
    simp only [pgxConnExplain] at ha
    exact List.eq_of_mem_replicate ha
  · simp [mysqlExplainerExplain]
  · intro a ha
    simp only [mysqlExplainerExplain] at ha
    exact List.eq_of_mem_replicate ha
  · intro args2 h
    constructor
    · simp [pgxConnExplain, h]
    · simp [mysqlExplainerExplain, h]

/-- C10 witness: the issued call is unchanged when the two parameters are
replaced by two entirely different ones. -/
theorem c10_explain_args_all_nil_witness :
    (pgxConnExplain c10PgOracle "SELECT 1" c10Params).1 =
      (pgxConnExplain c10PgOracle "SELECT 1"
        [{ number := 5, column := "a" }, { number := 6, column := "b" }]).1 ∧
    (mysqlExplainerExplain c10MyOracle "SELECT 1" c10Params).1 =
      (mysqlExplainerExplain c10MyOracle "SELECT 1"
        [{ number := 5, column := "a" }, { number := 6, column := "b" }]).1 :=
  (c10_explain_args_all_nil c10PgOracle c10MyOracle "SELECT 1" c10Params).2.2
    [{ number := 5, column := "a" }, { number := 6, column := "b" }] (by decide)

end SqlcVet
